import Mathlib

/-!
Verification of the OpenArchiver connector/synchronization core.

This file gives a shallow embedding, in Lean, of the ingestion connectors
(GmailConnector, JMAPConnector), of the device-flow OAuth controller, and of
the retry policy, translated from the TypeScript sources under
packages/backend/src.  Provider network behaviour is abstracted as oracles
(records of functions); generator runs are modelled as values recording the
yielded items, the final in-memory connector state, the external events
performed, and the terminating error, if any.
-/

namespace OpenArchiver

/-! ## Errors thrown by JMAP network calls (axios errors and plain throws) -/

/-- An error raised inside the JMAP connector: either an axios transport error
carrying an optional error code and an optional HTTP status, or a plain thrown
Error with a message. -/
inductive JErr where
  | axios (code : Option String) (status : Option Nat) (msg : String)
  | thrown (msg : String)
deriving Repr, DecidableEq

/-- The message of an error, as read by catch blocks. -/
def JErr.message : JErr → String
  | .axios _ _ m => m
  | .thrown m => m

/-- Translation of the retryability test of JMAPConnector.withRetry:
the error is an AxiosError whose code is ECONNRESET or ETIMEDOUT, or whose
response status is truthy and at least 500. -/
def isRetryable : JErr → Bool
  | .axios code status _ =>
      code == some "ECONNRESET" || code == some "ETIMEDOUT" ||
        (match status with
         | some s => decide (s ≠ 0) && decide (500 ≤ s)
         | none => false)
  | .thrown _ => false

/-- The backoff delay in milliseconds computed by JMAPConnector.withRetry for
a given attempt: Math.pow(2, attempt) * 1000 plus the random jitter term
(Math.random() * 1000), the jitter being passed here explicitly. -/
def retryDelayMs (attempt : Nat) (jitter : Nat) : Nat :=
  2 ^ attempt * 1000 + jitter

/-- The retry loop of JMAPConnector.withRetry, with the transport given as a
function from the 1-based attempt number to the outcome of that attempt.
fuel counts the remaining loop iterations; the loop is entered with
fuel = maxRetries and attempt = 1. -/
def withRetryGo (action : Nat → Except JErr α) (maxRetries : Nat) :
    Nat → Nat → Except JErr α
  | 0, _ => .error (.thrown "JMAP operation failed after all retries.")
  | fuel + 1, attempt =>
    match action attempt with
    | .ok v => .ok v
    | .error e =>
      if !(isRetryable e) || attempt == maxRetries then .error e
      else withRetryGo action maxRetries fuel (attempt + 1)

/-- JMAPConnector.withRetry: runs the action for at most maxRetries attempts,
retrying only retryable errors. -/
def withRetry (action : Nat → Except JErr α) (maxRetries : Nat) : Except JErr α :=
  withRetryGo action maxRetries maxRetries 1

/-! Helper lemmas about the retry loop. -/

theorem withRetryGo_congr (act₁ act₂ : Nat → Except JErr α) (m : Nat) :
    ∀ fuel attempt, (∀ a, attempt ≤ a → a < attempt + fuel → act₁ a = act₂ a) →
      withRetryGo act₁ m fuel attempt = withRetryGo act₂ m fuel attempt := by
  intro fuel
  induction fuel with
  | zero => intro attempt _; rfl
  | succ f ih =>
    intro attempt h
    have h0 : act₁ attempt = act₂ attempt := h attempt (le_refl _) (by omega)
    simp only [withRetryGo, ← h0]
    cases act₁ attempt with
    | ok v => rfl
    | error e =>
      dsimp only
      by_cases hr : (!(isRetryable e) || attempt == m) = true
      · simp [hr]
      · rw [if_neg hr, if_neg hr]
        exact ih (attempt + 1) (fun a ha hb => h a (by omega) (by omega))

theorem withRetryGo_ok (act : Nat → Except JErr α) (m : Nat) (v : α) :
    ∀ k attempt fuel, k < fuel → attempt + k ≤ m →
      (∀ a, attempt ≤ a → a < attempt + k → ∃ e, act a = .error e ∧ isRetryable e = true) →
      act (attempt + k) = .ok v →
      withRetryGo act m fuel attempt = .ok v := by
  intro k
  induction k with
  | zero =>
    intro attempt fuel hf _ _ hok
    obtain ⟨f, rfl⟩ : ∃ f, fuel = f + 1 := ⟨fuel - 1, by omega⟩
    rw [Nat.add_zero] at hok
    simp [withRetryGo, hok]
  | succ n ih =>
    intro attempt fuel hf hm hfail hok
    obtain ⟨f, rfl⟩ : ∃ f, fuel = f + 1 := ⟨fuel - 1, by omega⟩
    obtain ⟨e, he, hre⟩ := hfail attempt (le_refl _) (by omega)
    have hne : (attempt == m) = false := by
      have : attempt < m := by omega
      simp [Nat.ne_of_lt this]
    simp only [withRetryGo, he, hre, hne, Bool.not_true, Bool.false_or, if_false]
    have := ih (attempt + 1) f (by omega) (by omega)
      (fun a ha hb => hfail a (by omega) (by omega))
      (by rw [show attempt + 1 + n = attempt + (n + 1) from by omega]; exact hok)
    exact this

theorem withRetryGo_exhaust (act : Nat → Except JErr α) (m : Nat) (em : JErr) :
    ∀ fuel attempt, attempt + fuel = m + 1 → 1 ≤ fuel →
      (∀ a, attempt ≤ a → a ≤ m → ∃ e, act a = .error e ∧ isRetryable e = true) →
      act m = .error em →
      withRetryGo act m fuel attempt = .error em := by
  intro fuel
  induction fuel with
  | zero => intro attempt _ h; omega
  | succ f ih =>
    intro attempt hsum _ hfail hm
    by_cases hend : attempt = m
    · subst hend
      simp [withRetryGo, hm]
    · have hlt : attempt < m := by omega
      obtain ⟨e, he, hre⟩ := hfail attempt (le_refl _) (by omega)
      have hne : (attempt == m) = false := by simp [hend]
      simp only [withRetryGo, he, hre, hne, Bool.not_true, Bool.false_or, if_false]
      exact ih (attempt + 1) (by omega) (by omega)
        (fun a ha hb => hfail a (by omega) hb) hm

/-- ## C3.
For every provider network call wrapped in the retry policy:
(1) the attempt count is capped at 5 — the result depends only on the first
five attempts of the transport;
(2) a non-retryable failure on the first attempt aborts immediately with that
error;
(3) a transport failing transiently k < 5 times then succeeding returns the
value;
(4) a transport failing transiently on all 5 attempts propagates the error of
the final attempt;
(5) the scheduled delay before a retry is 2^attempt seconds (in ms) plus the
random jitter term. -/
theorem retry_policy_bounded {α : Type} :
    (∀ act₁ act₂ : Nat → Except JErr α,
      (∀ a, 1 ≤ a → a ≤ 5 → act₁ a = act₂ a) →
      withRetry act₁ 5 = withRetry act₂ 5) ∧
    (∀ (act : Nat → Except JErr α) (e : JErr),
      act 1 = .error e → isRetryable e = false → withRetry act 5 = .error e) ∧
    (∀ (act : Nat → Except JErr α) (v : α) (k : Nat), k < 5 →
      (∀ a, 1 ≤ a → a ≤ k → ∃ e, act a = .error e ∧ isRetryable e = true) →
      act (k + 1) = .ok v → withRetry act 5 = .ok v) ∧
    (∀ (act : Nat → Except JErr α) (e5 : JErr),
      (∀ a, 1 ≤ a → a ≤ 5 → ∃ e, act a = .error e ∧ isRetryable e = true) →
      act 5 = .error e5 → withRetry act 5 = .error e5) ∧
    (∀ attempt jitter, retryDelayMs attempt jitter = 2 ^ attempt * 1000 + jitter ∧
      retryDelayMs (attempt + 1) 0 = 2 * retryDelayMs attempt 0) := by
  refine ⟨?_, ?_, ?_, ?_, ?_⟩
  · intro act₁ act₂ h
    exact withRetryGo_congr act₁ act₂ 5 5 1 (fun a ha hb => h a ha (by omega))
  · intro act e h1 hnr
    simp [withRetry, withRetryGo, h1, hnr]
  · intro act v k hk hfail hok
    exact withRetryGo_ok act 5 v k 1 5 (by omega) (by omega)
      (fun a ha hb => hfail a ha (by omega)) (by rw [Nat.add_comm 1 k]; exact hok)
  · intro act e5 hfail h5
    exact withRetryGo_exhaust act 5 e5 5 1 (by omega) (by omega) hfail h5
  · intro attempt jitter
    constructor
    · rfl
    · simp [retryDelayMs]; ring

/-- Witness for C3: a transport that fails with a retryable 500 on the first
two attempts then succeeds returns the value under the retry policy. -/
theorem retry_policy_bounded_witness :
    withRetry
      (fun a => if a ≤ 2 then
          (.error (.axios none (some 500) "boom") : Except JErr Nat)
        else .ok 7) 5 = .ok 7 := by
  have h := (retry_policy_bounded (α := Nat)).2.2.1
  exact h (fun a => if a ≤ 2 then .error (.axios none (some 500) "boom") else .ok 7)
    7 2 (by omega)
    (fun a ha hb => ⟨.axios none (some 500) "boom", by
      constructor
      · simp [hb]
      · decide⟩)
    rfl

/-! ## Shared data model: addresses, parsed mail, EmailObject, SyncState -/

/-- An entry of the address lists of an EmailObject: displayName and address.
The source maps a parsed value v to (name: v.name, address: v.address or the
empty string when absent). -/
structure EmailAddress where
  name : Option String
  address : String
deriving Repr, DecidableEq

/-- A single parsed address value from mailparser (name and address may be
absent). -/
structure ParsedAddrVal where
  name : Option String
  address : Option String
deriving Repr, DecidableEq

/-- A mailparser AddressObject: a list of parsed values. -/
structure AddressObject where
  value : List ParsedAddrVal
deriving Repr, DecidableEq

/-- A mailparser address field: undefined, a single AddressObject, or an
array of AddressObjects. -/
inductive AddrField where
  | undef
  | one (a : AddressObject)
  | many (l : List AddressObject)
deriving Repr, DecidableEq

/-- The mapAddresses helper of both connectors: flattens the address field
into a single ordered list of EmailAddress values. -/
def mapAddresses (f : AddrField) : List EmailAddress :=
  let arr := match f with
    | .undef => []
    | .one a => [a]
    | .many l => l
  arr.flatMap (fun a => a.value.map (fun v => ⟨v.name, v.address.getD ""⟩))

/-- The threading headers of a parsed message (the part of the header map the
thread resolution reads). -/
structure MailHeaders where
  inReplyTo : Option String
  references : List String
deriving Repr, DecidableEq

/-- Modelled from the spec: the helper getThreadId
(services/ingestion-connectors/helpers/utils.ts, not among the sources)
derives a thread identifier from the standard threading headers, using the
In-Reply-To / References chain root: the root of the References chain when
present, otherwise the In-Reply-To id, otherwise nothing. -/
def getThreadId (h : MailHeaders) : Option String :=
  match h.references with
  | r :: _ => some r
  | [] => h.inReplyTo

/-- A mailparser attachment. -/
structure ParsedAttachment where
  filename : Option String
  contentType : String
  size : Nat
  content : String
deriving Repr, DecidableEq

/-- The result of simpleParser on a raw message, restricted to the fields the
connectors read. -/
structure ParsedMail where
  attachments : List ParsedAttachment
  fromA : AddrField
  toA : AddrField
  ccA : AddrField
  bccA : AddrField
  subject : Option String
  text : Option String
  html : Option String
  headers : MailHeaders
  date : Option Nat
deriving Repr, DecidableEq

/-- An attachment of an EmailObject: the source defaults a missing filename
to the placeholder untitled. -/
structure AttachmentObj where
  filename : String
  contentType : String
  size : Nat
  content : String
deriving Repr, DecidableEq

/-- The mapping of parsed attachments performed by both connectors. -/
def mapAttachments (l : List ParsedAttachment) : List AttachmentObj :=
  l.map (fun a => ⟨a.filename.getD "untitled", a.contentType, a.size, a.content⟩)

/-- The received timestamp of an EmailObject: the parsed Date when present,
otherwise a Date built from the provider string (JMAP) or the current time
(Gmail). -/
inductive DateVal where
  | parsed (n : Nat)
  | ofProvider (s : String)
  | now
deriving Repr, DecidableEq

/-- JavaScript truthiness of an optional string: present and nonempty. -/
def truthyS : Option String → Bool
  | some s => s ≠ ""
  | none => false

/-- JavaScript s₁ or-else s₂ for strings: s₁ unless it is empty. -/
def jsOr (a : Option String) (b : String) : String :=
  match a with
  | some s => if s = "" then b else s
  | none => b

/-- The canonical EmailObject emitted by the connectors.  threadId is an
option because the Gmail connector leaves it undefined when no threading
header resolves. -/
structure EmailObject where
  id : String
  threadId : Option String
  userEmail : Option String
  eml : String
  fromA : List EmailAddress
  toA : List EmailAddress
  ccA : List EmailAddress
  bccA : List EmailAddress
  subject : String
  body : String
  html : String
  headers : MailHeaders
  attachments : List AttachmentObj
  receivedAt : DateVal
  path : String
  tags : List String
deriving Repr, DecidableEq

/-- The SyncState envelope: nested maps keyed first by provider family then
by account, modelled as association lists, plus the optional status
message. -/
structure SyncState where
  gmail : List (String × String)
  jmap : List (String × String)
  statusMessage : Option String
deriving Repr, DecidableEq

/-- The empty SyncState. -/
def SyncState.empty : SyncState := ⟨[], [], none⟩

/-- Association-list lookup used to read the nested SyncState maps. -/
def assocGet (l : List (String × String)) (k : String) : Option String :=
  (l.find? (fun p => p.1 == k)).map (fun p => p.2)

/-! ## External events performed by the code under scrutiny -/

/-- An observable external action: a provider network call, a log entry, a
database write, or the scheduling of an initial import. -/
inductive Event where
  | netListMessages (pageToken : Option String)
  | netGetMessageMeta (id : String)
  | netGetMessageRaw (id : String)
  | netGetProfile
  | netHistoryList (startHistoryId : String) (pageToken : Option String)
  | netLabelGet (id : String)
  | netJmapQuery (position : Nat) (filter : Option (List String))
  | netJmapChanges (sinceState : String)
  | netJmapGetEmails (ids : List String)
  | netJmapDownload (blobId : String)
  | netTokenPoll
  | netUserinfo
  | logE (msg : String)
  | dbWrite (table : String) (rowId : String)
  | importTrigger (sourceId : String)
deriving Repr, DecidableEq

/-- Whether an event mutates durable state: a database write or a scheduled
import. -/
def Event.isDurable : Event → Bool
  | .dbWrite _ _ => true
  | .importTrigger _ => true
  | _ => false

/-- A list of events that touches no durable state. -/
def noDurable (evs : List Event) : Prop :=
  ∀ e ∈ evs, e.isDurable = false

/-! ## JMAP mailbox model and mailbox path resolution -/

/-- A JMAP Mailbox object, restricted to the properties the connector
requests: id, name, parentId, role. -/
structure JMAPMailbox where
  id : String
  name : String
  parentId : Option String
  role : Option String
deriving Repr, DecidableEq

/-- Lookup in the connector mailbox cache (a map from mailbox id to
mailbox). -/
def mbLookup (cache : List JMAPMailbox) (key : String) : Option JMAPMailbox :=
  cache.find? (fun mb => mb.id == key)

/-- The parent walk of JMAPConnector.getMailboxPath: starting from the parts
list holding the name of the mailbox itself, repeatedly prepend the name of
the parent while the current mailbox has a parentId that resolves in the
cache.  The fuel argument bounds the number of iterations of the while loop;
the loop of the source is unbounded. -/
def walkParts (cache : List JMAPMailbox) : Nat → JMAPMailbox → List String → List String
  | 0, _, acc => acc
  | fuel + 1, cur, acc =>
    match cur.parentId with
    | none => acc
    | some pid =>
      match mbLookup cache pid with
      | none => acc
      | some parent => walkParts cache fuel parent (parent.name :: acc)

/-- JMAPConnector.getMailboxPath with an explicit iteration bound: an unknown
mailbox id resolves to the empty path, otherwise the collected parts are
joined with a slash. -/
def getMailboxPathFuel (cache : List JMAPMailbox) (mailboxId : String) (fuel : Nat) : String :=
  match mbLookup cache mailboxId with
  | none => ""
  | some mb => String.intercalate "/" (walkParts cache fuel mb [mb.name])

/-- The mailbox path as computed inside the fetch pipeline, with enough fuel
for any acyclic cache. -/
def getMailboxPath (cache : List JMAPMailbox) (mailboxId : String) : String :=
  getMailboxPathFuel cache mailboxId cache.length

/-- Acyclicity of the parentId links of a mailbox cache: a measure on mailbox
ids that strictly decreases along every resolvable parent link. -/
def AcyclicCache (cache : List JMAPMailbox) : Prop :=
  ∃ r : String → Nat, ∀ mb ∈ cache, ∀ pid, mb.parentId = some pid →
    ∀ pmb, mbLookup cache pid = some pmb → r pid < r mb.id

theorem mbLookup_mem {cache : List JMAPMailbox} {k : String} {mb : JMAPMailbox}
    (h : mbLookup cache k = some mb) : mb ∈ cache ∧ mb.id = k := by
  have hm := List.mem_of_find?_eq_some h
  have hp := List.find?_some h
  simp only [beq_iff_eq] at hp
  exact ⟨hm, hp⟩

theorem walkParts_stable {cache : List JMAPMailbox} {r : String → Nat}
    (hr : ∀ mb ∈ cache, ∀ pid, mb.parentId = some pid →
      ∀ pmb, mbLookup cache pid = some pmb → r pid < r mb.id) :
    ∀ n cur fuel acc, cur ∈ cache → r cur.id < n → n ≤ fuel →
      walkParts cache fuel cur acc = walkParts cache n cur acc := by
  intro n
  induction n with
  | zero => intro cur fuel acc _ h; omega
  | succ n ih =>
    intro cur fuel acc hmem hrn hnf
    obtain ⟨f, rfl⟩ : ∃ f, fuel = f + 1 := ⟨fuel - 1, by omega⟩
    simp only [walkParts]
    cases hpid : cur.parentId with
    | none => rfl
    | some pid =>
      dsimp only
      cases hlk : mbLookup cache pid with
      | none => rfl
      | some parent =>
        dsimp only
        have hpm := mbLookup_mem hlk
        have hlt : r pid < r cur.id := hr cur hmem pid hpid parent hlk
        have h1 : walkParts cache f parent (parent.name :: acc) =
            walkParts cache n parent (parent.name :: acc) := by
          apply ih parent f _ hpm.1 _ (by omega)
          rw [hpm.2]; omega
        exact h1

/-- ## C10.
For every mailbox cache whose parentId links are acyclic, mailbox path
resolution terminates: the fuel-indexed walk stabilizes from some bound on,
the parent walk stopping at a mailbox with no parentId or with a parentId
absent from the cache; an unknown mailbox id resolves to the empty path. -/
theorem mailbox_path_terminates (cache : List JMAPMailbox) (mailboxId : String)
    (hac : AcyclicCache cache) :
    (∃ N, ∀ fuel, N ≤ fuel →
      getMailboxPathFuel cache mailboxId fuel = getMailboxPathFuel cache mailboxId N) ∧
    (mbLookup cache mailboxId = none →
      ∀ fuel, getMailboxPathFuel cache mailboxId fuel = "") := by
  obtain ⟨r, hr⟩ := hac
  constructor
  · cases hlk : mbLookup cache mailboxId with
    | none => exact ⟨0, fun fuel _ => by simp [getMailboxPathFuel, hlk]⟩
    | some mb =>
      refine ⟨r mb.id + 1, fun fuel hf => ?_⟩
      simp only [getMailboxPathFuel, hlk]
      have := walkParts_stable hr (r mb.id + 1) mb fuel [mb.name]
        (mbLookup_mem hlk).1 (by omega) hf
      rw [this]
  · intro hlk fuel
    simp [getMailboxPathFuel, hlk]

/-- Witness for C10: a concrete two-level cache (parent and child) is acyclic
and the resolution of the child stabilizes; an id absent from the cache
resolves to the empty path. -/
theorem mailbox_path_terminates_witness :
    AcyclicCache [⟨"root", "Inbox", none, none⟩, ⟨"c1", "Sub", some "root", none⟩] ∧
    (∃ N, ∀ fuel, N ≤ fuel →
      getMailboxPathFuel [⟨"root", "Inbox", none, none⟩, ⟨"c1", "Sub", some "root", none⟩]
          "c1" fuel =
        getMailboxPathFuel [⟨"root", "Inbox", none, none⟩, ⟨"c1", "Sub", some "root", none⟩]
          "c1" N) ∧
    getMailboxPath [⟨"root", "Inbox", none, none⟩, ⟨"c1", "Sub", some "root", none⟩] "c1" =
      "Inbox/Sub" := by
  have hac : AcyclicCache
      [⟨"root", "Inbox", none, none⟩, ⟨"c1", "Sub", some "root", none⟩] := by
    refine ⟨fun s => if s = "root" then 0 else 1, ?_⟩
    intro mb hmb pid hpid pmb hpmb
    fin_cases hmb <;> simp_all <;> subst hpid <;> simp_all [mbLookup]
  refine ⟨hac, (mailbox_path_terminates _ "c1" hac).1, by decide⟩

/-! ## JMAP connector embedding

The JMAP session document and the Mailbox/get call are modelled as fields of
the provider oracle (the connector fetches and memoizes them before any email
is produced); every other network call is a transport indexed by the 1-based
attempt number, so that the withRetry wrapper applies exactly as in the
source.  Base64 and blob decoding are absorbed into the oracle: blobT yields
the raw transport bytes directly. -/

/-- A JMAP Email object, restricted to the properties the connector
requests. -/
structure JMAPEmail where
  id : String
  blobId : String
  threadId : String
  mailboxIds : List String
  receivedAt : String
  subject : String
deriving Repr, DecidableEq

/-- The response to the chained Email/query + Email/get request of the full
import: the ids of the query response, and the list and state of the
Email/get response. -/
structure JmapQueryResp where
  ids : List String
  list : List JMAPEmail
  state : Option String
deriving Repr, DecidableEq

/-- The response to an Email/changes request: either a proper response with
newState and the created/updated id arrays (each possibly absent), or a
method-level error with its type string. -/
inductive JmapChangesResp where
  | okResp (newState : Option String) (created : Option (List String))
      (updated : Option (List String))
  | methodError (errType : String)
deriving Repr, DecidableEq

/-- The provider oracle for one JMAP account. -/
structure JmapProvider where
  accountId : String
  username : String
  mailboxes : List JMAPMailbox
  queryT : Nat → Option (List String) → Nat → Except JErr JmapQueryResp
  changesT : String → Nat → Except JErr JmapChangesResp
  getT : List String → Nat → Except JErr (List JMAPEmail)
  blobT : String → Nat → Except JErr String
  parse : String → ParsedMail

/-- The mutable in-memory fields of a JMAPConnector instance that the fetch
cycle touches.  statusMessage is declared by the class but never assigned
anywhere in the source. -/
structure JmapConnState where
  accountId : Option String
  newEmailState : Option String
  mailboxCache : List JMAPMailbox
  statusMessage : Option String
deriving Repr, DecidableEq

/-- The observable outcome of (a segment of) an async generator run: the
events performed, the EmailObjects yielded, the final connector state, and
the error that terminated the run, if any.  A caller that aborts consumption
after k items observes a prefix of items and events. -/
structure JmapGen where
  events : List Event
  items : List EmailObject
  state : JmapConnState
  err : Option JErr
deriving Repr, DecidableEq

/-- The EmailObject built by JMAPConnector.fetchAndParseEmail from a JMAP
email, its raw blob and the parse result. -/
def jmapEmailObject (p : JmapProvider) (st : JmapConnState) (email : JMAPEmail)
    (raw : String) (parsed : ParsedMail) : EmailObject :=
  let paths := (email.mailboxIds.map
    (fun i => getMailboxPath st.mailboxCache i)).filter (fun s => s ≠ "")
  { id := email.id
    threadId := some (jsOr (getThreadId parsed.headers) email.threadId)
    userEmail := some p.username
    eml := raw
    fromA := mapAddresses parsed.fromA
    toA := mapAddresses parsed.toA
    ccA := mapAddresses parsed.ccA
    bccA := mapAddresses parsed.bccA
    subject := jsOr parsed.subject (jsOr (some email.subject) "")
    body := parsed.text.getD ""
    html := parsed.html.getD ""
    headers := parsed.headers
    attachments := mapAttachments parsed.attachments
    receivedAt := match parsed.date with
      | some n => .parsed n
      | none => .ofProvider email.receivedAt
    path := paths.head?.getD ""
    tags := paths }

/-- JMAPConnector.fetchAndParseEmail: downloads the blob under the retry
policy and parses it. -/
def fetchAndParseEmail (p : JmapProvider) (st : JmapConnState) (email : JMAPEmail) :
    List Event × Except JErr EmailObject :=
  match withRetry (p.blobT email.blobId) 5 with
  | .error e => ([.netJmapDownload email.blobId], .error e)
  | .ok raw =>
      ([.netJmapDownload email.blobId], .ok (jmapEmailObject p st email raw (p.parse raw)))

/-- The per-email loop shared by both JMAP fetch paths: each email is fetched
and parsed; a failure is logged and the email skipped — the loop never
aborts. -/
def processEmails (p : JmapProvider) (st : JmapConnState) :
    List JMAPEmail → List Event × List EmailObject
  | [] => ([], [])
  | e :: rest =>
    let fp := fetchAndParseEmail p st e
    let r := processEmails p st rest
    match fp.2 with
    | .error _ => (fp.1 ++ [.logE "Failed to fetch or parse JMAP email"] ++ r.1, r.2)
    | .ok obj => (fp.1 ++ r.1, obj :: r.2)

/-- JMAPConnector.getExcludedMailboxIds: the ids of the cached mailboxes
whose role is trash or junk. -/
def getExcludedMailboxIds (cache : List JMAPMailbox) : List String :=
  (cache.filter (fun mb => mb.role == some "trash" || mb.role == some "junk")).map
    (fun mb => mb.id)

/-- The Email/query pagination loop of JMAPConnector.fetchAllEmails.  The
fuel argument bounds the number of pages; the loop of the source runs until
a short page arrives. -/
def fetchAllEmailsGo (p : JmapProvider) (allInclusiveArchive : Bool) :
    Nat → Nat → JmapConnState → JmapGen
  | 0, _, st => ⟨[], [], st, none⟩
  | fuel + 1, position, st =>
    let filter := if allInclusiveArchive then none
      else some (getExcludedMailboxIds st.mailboxCache)
    let qEv := Event.netJmapQuery position filter
    match withRetry (p.queryT position filter) 5 with
    | .error e => ⟨[qEv], [], st, some e⟩
    | .ok resp =>
      let st1 := if truthyS resp.state then { st with newEmailState := resp.state } else st
      let pr := processEmails p st1 resp.list
      if resp.ids.length == 50 then
        let g := fetchAllEmailsGo p allInclusiveArchive fuel (position + resp.list.length) st1
        ⟨qEv :: pr.1 ++ g.events, pr.2 ++ g.items, g.state, g.err⟩
      else
        ⟨qEv :: pr.1, pr.2, st1, none⟩

/-- JMAPConnector.fetchAllEmails: full import starting at position 0. -/
def fetchAllEmails (p : JmapProvider) (allInclusiveArchive : Bool) (pageFuel : Nat)
    (st : JmapConnState) : JmapGen :=
  fetchAllEmailsGo p allInclusiveArchive pageFuel 0 st

/-- The slicing loop on the ids to fetch, with fuel bounding the number of
batches; every batch removes at least one element, so l.length fuel is
always enough. -/
def chunks50Go : Nat → List String → List (List String)
  | _, [] => []
  | 0, _ :: _ => []
  | fuel + 1, x :: xs => ((x :: xs).take 50) :: chunks50Go fuel ((x :: xs).drop 50)

/-- The slicing of the ids to fetch into batches of 50, as in the
incremental path of the source. -/
def chunks50 (l : List String) : List (List String) :=
  chunks50Go l.length l

/-- The Email/get batch loop of the incremental path: a batch-level failure
aborts the run; per-email failures inside a batch are skipped. -/
def changesBatches (p : JmapProvider) (st : JmapConnState) :
    List (List String) → List Event × List EmailObject × Option JErr
  | [] => ([], [], none)
  | batch :: rest =>
    let gEv := Event.netJmapGetEmails batch
    match withRetry (p.getT batch) 5 with
    | .error e => ([gEv], [], some e)
    | .ok list =>
      let pr := processEmails p st list
      let r := changesBatches p st rest
      (gEv :: pr.1 ++ r.1, pr.2 ++ r.2.1, r.2.2)

/-- The try block of JMAPConnector.fetchEmailChanges: the Email/changes call,
the method-level cannotCalculateChanges fallback to a full import, the
propagation of any other method-level error as a thrown Error, and the
batched Email/get of the created and updated ids. -/
def fetchEmailChangesTry (p : JmapProvider) (allInclusiveArchive : Bool) (pageFuel : Nat)
    (st : JmapConnState) (sinceState : String) : JmapGen :=
  let cEv := Event.netJmapChanges sinceState
  match withRetry (p.changesT sinceState) 5 with
  | .error e => ⟨[cEv], [], st, some e⟩
  | .ok (.methodError t) =>
    if t == "cannotCalculateChanges" then
      let g := fetchAllEmails p allInclusiveArchive pageFuel st
      ⟨cEv :: Event.logE "JMAP state too old, performing full re-sync" :: g.events,
        g.items, g.state, g.err⟩
    else
      ⟨[cEv], [], st, some (.thrown ("JMAP error: " ++ t))⟩
  | .ok (.okResp newState created updated) =>
    let st1 := if truthyS newState then { st with newEmailState := newState } else st
    let idsToFetch := created.getD [] ++ updated.getD []
    if idsToFetch.length > 0 then
      let r := changesBatches p st1 (chunks50 idsToFetch)
      ⟨cEv :: r.1, r.2.1, st1, r.2.2⟩
    else ⟨[cEv], [], st1, none⟩

/-- Whether a message contains the substring cannotCalculateChanges, as
tested by the catch block of fetchEmailChanges. -/
def containsCCC (s : String) : Bool :=
  decide ("cannotCalculateChanges".toList <:+: s.toList)

/-- JMAPConnector.fetchEmailChanges: the try block above wrapped in the catch
that falls back to a full import when the caught message mentions
cannotCalculateChanges and rethrows otherwise.  Items yielded before the
caught error stay yielded. -/
def fetchEmailChanges (p : JmapProvider) (allInclusiveArchive : Bool) (pageFuel : Nat)
    (st : JmapConnState) (sinceState : String) : JmapGen :=
  let g := fetchEmailChangesTry p allInclusiveArchive pageFuel st sinceState
  match g.err with
  | none => g
  | some e =>
    if containsCCC e.message then
      let g2 := fetchAllEmails p allInclusiveArchive pageFuel g.state
      ⟨g.events ++ Event.logE "JMAP state invalid, performing full re-sync" :: g2.events,
        g.items ++ g2.items, g2.state, g2.err⟩
    else g

/-- The connector state after getAccountId and fetchMailboxes: account id
resolved, mailbox cache populated, no cursor advancement yet. -/
def jmapInitState (p : JmapProvider) : JmapConnState :=
  ⟨some p.accountId, none, p.mailboxes, none⟩

/-- The truthy read of syncState.jmap.accountId.emailState performed by
JMAPConnector.fetchEmails. -/
def jmapExistingState (syncState : Option SyncState) (accountId : String) : Option String :=
  match syncState with
  | none => none
  | some ss =>
    match assocGet ss.jmap accountId with
    | some v => if v = "" then none else some v
    | none => none

/-- JMAPConnector.fetchEmails: incremental via Email/changes when a truthy
prior emailState exists for the account, full import otherwise. -/
def jmapFetchEmails (p : JmapProvider) (allInclusiveArchive : Bool) (pageFuel : Nat)
    (syncState : Option SyncState) : JmapGen :=
  let st0 := jmapInitState p
  match jmapExistingState syncState p.accountId with
  | some s => fetchEmailChanges p allInclusiveArchive pageFuel st0 s
  | none => fetchAllEmails p allInclusiveArchive pageFuel st0

/-- JMAPConnector.getUpdatedSyncState: empty unless both the account id and
the accumulated email state are truthy; otherwise the jmap-keyed cursor, plus
the status message when truthy. -/
def jmapGetUpdatedSyncState (st : JmapConnState) : SyncState :=
  if !(truthyS st.accountId) || !(truthyS st.newEmailState) then SyncState.empty
  else
    { gmail := []
      jmap := [(st.accountId.getD "", st.newEmailState.getD "")]
      statusMessage := if truthyS st.statusMessage then st.statusMessage else none }

/-! ## C1: transparent fallback on cannotCalculateChanges -/

theorem withRetryGo_first_ok {α : Type} (act : Nat → Except JErr α) (m : Nat) (v : α)
    (fuel attempt : Nat) (h : act attempt = .ok v) :
    withRetryGo act m (fuel + 1) attempt = .ok v := by
  simp [withRetryGo, h]

theorem withRetryGo_first_error {α : Type} (act : Nat → Except JErr α) (m : Nat) (e : JErr)
    (fuel attempt : Nat) (h : act attempt = .error e) (hr : isRetryable e = false) :
    withRetryGo act m (fuel + 1) attempt = .error e := by
  simp [withRetryGo, h, hr]

theorem withRetry_first_ok {α : Type} (act : Nat → Except JErr α) (v : α)
    (h : act 1 = .ok v) : withRetry act 5 = .ok v := by
  show withRetryGo act 5 5 1 = .ok v
  exact withRetryGo_first_ok act 5 v 4 1 h

theorem withRetry_first_error {α : Type} (act : Nat → Except JErr α) (e : JErr)
    (h : act 1 = .error e) (hr : isRetryable e = false) : withRetry act 5 = .error e := by
  show withRetryGo act 5 5 1 = .error e
  exact withRetryGo_first_error act 5 e 4 1 h hr

/-- The full-import loop only ever writes the newEmailState field of the
connector state: account id, mailbox cache and status message are
preserved. -/
theorem fetchAllEmailsGo_frame (p : JmapProvider) (allInc : Bool) :
    ∀ fuel pos st, (fetchAllEmailsGo p allInc fuel pos st).state.accountId = st.accountId ∧
      (fetchAllEmailsGo p allInc fuel pos st).state.mailboxCache = st.mailboxCache ∧
      (fetchAllEmailsGo p allInc fuel pos st).state.statusMessage = st.statusMessage := by
  intro fuel
  induction fuel with
  | zero => intro pos st; exact ⟨by trivial, by trivial, by trivial⟩
  | succ f ih =>
    intro pos st
    simp only [fetchAllEmailsGo]
    cases hq : withRetry
        (p.queryT pos (if allInc then none else some (getExcludedMailboxIds st.mailboxCache)))
        5 with
    | error e => exact ⟨by trivial, by trivial, by trivial⟩
    | ok resp =>
      dsimp only
      by_cases hlen : (resp.ids.length == 50) = true
      · simp only [hlen, if_true]
        by_cases hts : truthyS resp.state = true
        · simp only [hts, if_true]
          exact ih (pos + resp.list.length) _
        · simp only [Bool.not_eq_true] at hts
          simp only [hts, Bool.false_eq_true, if_false]
          exact ih (pos + resp.list.length) st
      · simp only [Bool.not_eq_true] at hlen
        simp only [hlen, Bool.false_eq_true, if_false]
        by_cases hts : truthyS resp.state = true
        · simp only [hts, if_true]
          exact ⟨by trivial, by trivial, by trivial⟩
        · simp only [Bool.not_eq_true] at hts
          simp only [hts, Bool.false_eq_true, if_false]
          exact ⟨by trivial, by trivial, by trivial⟩

/-- ## C1.
When the prior SyncState holds a cursor for the account and the provider
answers the Email/changes request with the terminal cannotCalculateChanges
method error, fetchEmails does not raise but runs a full import for the
cycle: the yielded items, final state and outcome equal those of an initial
import, and the full-import cursor is available through getUpdatedSyncState;
an incremental-fetch method error of any other type, and a transport error,
are propagated to the caller. -/
theorem jmap_cursor_fallback :
    (∀ (p : JmapProvider) (allInc : Bool) (fuel : Nat) (ss : SyncState) (s : String),
      jmapExistingState (some ss) p.accountId = some s →
      p.changesT s 1 = .ok (.methodError "cannotCalculateChanges") →
      (∀ e, (jmapFetchEmails p allInc fuel none).err = some e →
        containsCCC e.message = false) →
      (jmapFetchEmails p allInc fuel (some ss)).items =
          (jmapFetchEmails p allInc fuel none).items ∧
      (jmapFetchEmails p allInc fuel (some ss)).state =
          (jmapFetchEmails p allInc fuel none).state ∧
      (jmapFetchEmails p allInc fuel (some ss)).err =
          (jmapFetchEmails p allInc fuel none).err ∧
      (∀ ns, p.accountId ≠ "" →
        (jmapFetchEmails p allInc fuel none).state.newEmailState = some ns → ns ≠ "" →
        jmapGetUpdatedSyncState (jmapFetchEmails p allInc fuel (some ss)).state =
          ⟨[], [(p.accountId, ns)], none⟩)) ∧
    (∀ (p : JmapProvider) (allInc : Bool) (fuel : Nat) (ss : SyncState) (s t : String),
      jmapExistingState (some ss) p.accountId = some s →
      p.changesT s 1 = .ok (.methodError t) →
      t ≠ "cannotCalculateChanges" →
      containsCCC ("JMAP error: " ++ t) = false →
      (jmapFetchEmails p allInc fuel (some ss)).err =
          some (.thrown ("JMAP error: " ++ t)) ∧
      (jmapFetchEmails p allInc fuel (some ss)).items = []) ∧
    (∀ (p : JmapProvider) (allInc : Bool) (fuel : Nat) (ss : SyncState) (s : String) (e : JErr),
      jmapExistingState (some ss) p.accountId = some s →
      p.changesT s 1 = .error e → isRetryable e = false →
      containsCCC e.message = false →
      (jmapFetchEmails p allInc fuel (some ss)).err = some e ∧
      (jmapFetchEmails p allInc fuel (some ss)).items = []) := by
  refine ⟨?_, ?_, ?_⟩
  · intro p allInc fuel ss s hex hch hfull
    have hw : withRetry (p.changesT s) 5 = .ok (.methodError "cannotCalculateChanges") :=
      withRetry_first_ok _ _ hch
    have hrhs : jmapFetchEmails p allInc fuel none =
        fetchAllEmails p allInc fuel (jmapInitState p) := rfl
    have hlhs : jmapFetchEmails p allInc fuel (some ss) =
        fetchEmailChanges p allInc fuel (jmapInitState p) s := by
      simp only [jmapFetchEmails, hex]
    set g := fetchAllEmails p allInc fuel (jmapInitState p) with hg
    have htry : fetchEmailChangesTry p allInc fuel (jmapInitState p) s =
        ⟨.netJmapChanges s :: .logE "JMAP state too old, performing full re-sync" :: g.events,
          g.items, g.state, g.err⟩ := by
      simp only [fetchEmailChangesTry, hw]
      simp
    have hmain : (jmapFetchEmails p allInc fuel (some ss)).items = g.items ∧
        (jmapFetchEmails p allInc fuel (some ss)).state = g.state ∧
        (jmapFetchEmails p allInc fuel (some ss)).err = g.err := by
      rw [hlhs]
      simp only [fetchEmailChanges, htry]
      cases hge : g.err with
      | none => exact ⟨by trivial, by trivial, by trivial⟩
      | some e =>
        have : containsCCC e.message = false := by
          apply hfull
          rw [hrhs]; exact hge
        simp only [this, Bool.false_eq_true, if_false]
        exact ⟨by trivial, by trivial, by trivial⟩
    refine ⟨by rw [hmain.1, hrhs], by rw [hmain.2.1, hrhs], by rw [hmain.2.2, hrhs], ?_⟩
    intro ns hacc hns hns'
    rw [hmain.2.1]
    have hfr := fetchAllEmailsGo_frame p allInc fuel 0 (jmapInitState p)
    have hga : g.state.accountId = some p.accountId := hfr.1
    have hgs : g.state.statusMessage = none := hfr.2.2
    have hgn : g.state.newEmailState = some ns := by rw [hrhs] at hns; exact hns
    simp only [jmapGetUpdatedSyncState, hga, hgn, hgs, truthyS]
    simp [hacc, hns']
  · intro p allInc fuel ss s t hex hch hne hccc
    have hw : withRetry (p.changesT s) 5 = .ok (.methodError t) :=
      withRetry_first_ok _ _ hch
    have hlhs : jmapFetchEmails p allInc fuel (some ss) =
        fetchEmailChanges p allInc fuel (jmapInitState p) s := by
      simp only [jmapFetchEmails, hex]
    rw [hlhs]
    have hbne : (t == "cannotCalculateChanges") = false := by simp [hne]
    have htry : fetchEmailChangesTry p allInc fuel (jmapInitState p) s =
        ⟨[.netJmapChanges s], [], jmapInitState p, some (.thrown ("JMAP error: " ++ t))⟩ := by
      simp only [fetchEmailChangesTry, hw, hbne]
      simp
    simp only [fetchEmailChanges, htry]
    simp only [JErr.message, hccc, Bool.false_eq_true, if_false]
    exact ⟨by trivial, by trivial⟩
  · intro p allInc fuel ss s e hex hch hre hccc
    have hw : withRetry (p.changesT s) 5 = .error e :=
      withRetry_first_error _ _ hch hre
    have hlhs : jmapFetchEmails p allInc fuel (some ss) =
        fetchEmailChanges p allInc fuel (jmapInitState p) s := by
      simp only [jmapFetchEmails, hex]
    rw [hlhs]
    have htry : fetchEmailChangesTry p allInc fuel (jmapInitState p) s =
        ⟨[.netJmapChanges s], [], jmapInitState p, some e⟩ := by
      simp only [fetchEmailChangesTry, hw]
    simp only [fetchEmailChanges, htry]
    simp only [hccc, Bool.false_eq_true, if_false]
    exact ⟨by trivial, by trivial⟩

/-- A concrete JMAP provider whose Email/changes request always reports
cannotCalculateChanges, with one empty full-import page carrying state S1. -/
def cccProvider : JmapProvider :=
  { accountId := "acc"
    username := "user@example.com"
    mailboxes := []
    queryT := fun _ _ _ => .ok ⟨[], [], some "S1"⟩
    changesT := fun _ _ => .ok (.methodError "cannotCalculateChanges")
    getT := fun _ _ => .ok []
    blobT := fun _ _ => .ok ""
    parse := fun _ => ⟨[], .undef, .undef, .undef, .undef, none, none, none, ⟨none, []⟩, none⟩ }

/-- Witness for C1: with a prior cursor S0 that the provider rejects as
uncomputable, fetchEmails completes like an initial import and
getUpdatedSyncState carries the full-import cursor S1. -/
theorem jmap_cursor_fallback_witness :
    (jmapFetchEmails cccProvider true 1 (some ⟨[], [("acc", "S0")], none⟩)).items =
        (jmapFetchEmails cccProvider true 1 none).items ∧
    (jmapFetchEmails cccProvider true 1 (some ⟨[], [("acc", "S0")], none⟩)).err =
        (jmapFetchEmails cccProvider true 1 none).err ∧
    jmapGetUpdatedSyncState
        (jmapFetchEmails cccProvider true 1 (some ⟨[], [("acc", "S0")], none⟩)).state =
      ⟨[], [("acc", "S1")], none⟩ := by
  have h := jmap_cursor_fallback.1 cccProvider true 1 ⟨[], [("acc", "S0")], none⟩ "S0"
    (by decide) rfl
    (by
      intro e he
      rw [show (jmapFetchEmails cccProvider true 1 none).err = none from by decide] at he
      exact Option.noConfusion he)
  exact ⟨h.1, h.2.2.1, h.2.2.2 "S1" (by decide) (by decide) (by decide)⟩

/-! ## Gmail connector embedding

The provider oracle mirrors the Gmail API surface the connector reads; the
base64url decoding of the RAW payload is absorbed into the oracle (msgRaw
yields the decoded bytes), and simpleParser is the oracle parse function. -/

/-- An error thrown by a Gmail API call, with the code field the connector
inspects. -/
structure GmailErr where
  code : Option Nat
  msg : String
deriving Repr, DecidableEq

/-- An entry of a messages.list response. -/
structure GMessageRef where
  id : Option String
deriving Repr, DecidableEq

/-- A messages.list response page. -/
structure GListResp where
  messages : Option (List GMessageRef)
  nextPageToken : Option String
deriving Repr, DecidableEq

/-- A messagesAdded entry of a history record. -/
structure GHistAdded where
  message : Option GMessageRef
deriving Repr, DecidableEq

/-- A history record of a history.list response. -/
structure GHistRecord where
  messagesAdded : Option (List GHistAdded)
deriving Repr, DecidableEq

/-- A history.list response page. -/
structure GHistResp where
  history : Option (List GHistRecord)
  nextPageToken : Option String
  historyId : Option String
deriving Repr, DecidableEq

/-- A users.getProfile response. -/
structure GProfile where
  emailAddress : Option String
  historyId : Option String
deriving Repr, DecidableEq

/-- A labels.get response, restricted to the fields the connector reads. -/
structure GLabel where
  name : Option String
  ltype : Option String
deriving Repr, DecidableEq

/-- A messages.get RAW response.  threadId is the provider-native Gmail
thread id, present in the response but never read by the connector. -/
structure GRawResp where
  id : String
  raw : Option String
  threadId : Option String
deriving Repr, DecidableEq

/-- The provider oracle for one Gmail account. -/
structure GmailProvider where
  listPage : Option String → Except GmailErr GListResp
  historyPage : String → Option String → Except GmailErr GHistResp
  msgMeta : String → Except GmailErr (Option (List String))
  msgRaw : String → Except GmailErr GRawResp
  labelGet : String → Except GmailErr GLabel
  profile : Except GmailErr GProfile
  parse : String → ParsedMail

/-- The mutable in-memory fields of a GmailConnector instance. -/
structure GmailState where
  newHistoryId : Option String
  labelCache : List (String × GLabel)
deriving Repr, DecidableEq

/-- The observable outcome of (a segment of) a Gmail generator run. -/
structure GmailGen where
  events : List Event
  items : List EmailObject
  state : GmailState
  err : Option GmailErr
deriving Repr, DecidableEq

/-- The loop state of getLabelDetails: events performed, label cache, path
and tags accumulated so far, and a thrown error, if any. -/
structure LabelAcc where
  events : List Event
  cache : List (String × GLabel)
  path : String
  tags : List String
  err : Option GmailErr
deriving Repr, DecidableEq

/-- The per-label accumulation of getLabelDetails: a truthy label name joins
the tags, and additionally extends the path when the label type is user. -/
def labelStep (label : GLabel) (acc : LabelAcc) : LabelAcc :=
  match label.name with
  | none => acc
  | some nm =>
    if nm = "" then acc
    else
      { acc with
        tags := acc.tags ++ [nm]
        path := if label.ltype == some "user" then
            (if acc.path = "" then nm else acc.path ++ "/" ++ nm)
          else acc.path }

/-- The loop of GmailConnector.getLabelDetails over the label ids of one
message, memoizing labels.get responses in the connector label cache. -/
def getLabelDetailsGo (p : GmailProvider) : List String → LabelAcc → LabelAcc
  | [], acc => acc
  | lid :: rest, acc =>
    match (acc.cache.find? (fun q => q.1 == lid)).map (fun q => q.2) with
    | some label => getLabelDetailsGo p rest (labelStep label acc)
    | none =>
      match p.labelGet lid with
      | .error e => { acc with events := acc.events ++ [.netLabelGet lid], err := some e }
      | .ok label =>
        getLabelDetailsGo p rest
          (labelStep label
            { acc with
              events := acc.events ++ [.netLabelGet lid]
              cache := acc.cache ++ [(lid, label)] })

/-- The EmailObject built by GmailConnector.fetchSingleMessage.  The thread
id is always the header-derived one; the provider-native thread id of the
RAW response is not consulted. -/
def gmailEmailObject (resp : GRawResp) (userEmail : String) (raw : String)
    (parsed : ParsedMail) (path : String) (tags : List String) : EmailObject :=
  { id := resp.id
    threadId := getThreadId parsed.headers
    userEmail := some userEmail
    eml := raw
    fromA := mapAddresses parsed.fromA
    toA := mapAddresses parsed.toA
    ccA := mapAddresses parsed.ccA
    bccA := mapAddresses parsed.bccA
    subject := jsOr parsed.subject ""
    body := parsed.text.getD ""
    html := parsed.html.getD ""
    headers := parsed.headers
    attachments := mapAttachments parsed.attachments
    receivedAt := match parsed.date with
      | some n => .parsed n
      | none => .now
    path := path
    tags := tags }

/-- GmailConnector.fetchSingleMessage: metadata fetch, label resolution,
RAW fetch, parse; a RAW response without a raw payload resolves to nothing
yielded for this message. -/
def fetchSingleMessage (p : GmailProvider) (st : GmailState) (messageId userEmail : String) :
    List Event × GmailState × Except GmailErr (Option EmailObject) :=
  match p.msgMeta messageId with
  | .error e => ([.netGetMessageMeta messageId], st, .error e)
  | .ok labelIds =>
    let la := getLabelDetailsGo p (labelIds.getD []) ⟨[], st.labelCache, "", [], none⟩
    let st1 : GmailState := { st with labelCache := la.cache }
    let evs := Event.netGetMessageMeta messageId :: la.events
    match la.err with
    | some e => (evs, st1, .error e)
    | none =>
      match p.msgRaw messageId with
      | .error e => (evs ++ [.netGetMessageRaw messageId], st1, .error e)
      | .ok resp =>
        match resp.raw with
        | none => (evs ++ [.netGetMessageRaw messageId], st1, .ok none)
        | some raw =>
          (evs ++ [.netGetMessageRaw messageId], st1,
            .ok (some (gmailEmailObject resp userEmail raw (p.parse raw) la.path la.tags)))

/-- The per-message loop shared by both Gmail fetch paths, over the present
message ids: a 404 from fetchSingleMessage is logged and the message
skipped; any other error aborts the run. -/
def gmailFetchIds (p : GmailProvider) (userEmail notFoundMsg : String) :
    List String → GmailState → GmailGen
  | [], st => ⟨[], [], st, none⟩
  | mid :: rest, st =>
    let r := fetchSingleMessage p st mid userEmail
    match r.2.2 with
    | .error e =>
      if e.code == some 404 then
        let rr := gmailFetchIds p userEmail notFoundMsg rest r.2.1
        ⟨r.1 ++ Event.logE notFoundMsg :: rr.events, rr.items, rr.state, rr.err⟩
      else ⟨r.1, [], r.2.1, some e⟩
    | .ok none =>
      let rr := gmailFetchIds p userEmail notFoundMsg rest r.2.1
      ⟨r.1 ++ rr.events, rr.items, rr.state, rr.err⟩
    | .ok (some obj) =>
      let rr := gmailFetchIds p userEmail notFoundMsg rest r.2.1
      ⟨r.1 ++ rr.events, obj :: rr.items, rr.state, rr.err⟩

/-- The present message ids of a messages.list page, in page order. -/
def gmailPageIds (msgs : List GMessageRef) : List String :=
  msgs.filterMap (fun m => m.id)

/-- The present message ids announced by the messagesAdded entries of a
history.list page, in record order. -/
def gmailHistoryIds (hists : List GHistRecord) : List String :=
  (hists.flatMap (fun h => h.messagesAdded.getD [])).filterMap
    (fun ma => ma.message.bind (fun m => m.id))

/-- The do/while pagination loop of GmailConnector.fetchAllMessagesForUser.
After the last page the current profile historyId is captured as the new
cursor; a page without messages returns early, skipping the capture. -/
def gmailFullGo (p : GmailProvider) (userEmail : String) :
    Nat → GmailState → Option String → GmailGen
  | 0, st, _ => ⟨[], [], st, none⟩
  | fuel + 1, st, pageToken =>
    let lEv := Event.netListMessages pageToken
    match p.listPage pageToken with
    | .error e => ⟨[lEv], [], st, some e⟩
    | .ok resp =>
      match resp.messages with
      | none => ⟨[lEv], [], st, none⟩
      | some msgs =>
        if msgs.isEmpty then ⟨[lEv], [], st, none⟩
        else
          let pr := gmailFetchIds p userEmail
            "Message not found during initial import, skipping." (gmailPageIds msgs) st
          match pr.err with
          | some e => ⟨lEv :: pr.events, pr.items, pr.state, some e⟩
          | none =>
            if truthyS resp.nextPageToken then
              let g := gmailFullGo p userEmail fuel pr.state resp.nextPageToken
              ⟨lEv :: pr.events ++ g.events, pr.items ++ g.items, g.state, g.err⟩
            else
              match p.profile with
              | .error e => ⟨lEv :: pr.events ++ [.netGetProfile], pr.items, pr.state, some e⟩
              | .ok prof =>
                let st2 := if truthyS prof.historyId then
                    { pr.state with newHistoryId := prof.historyId }
                  else pr.state
                ⟨lEv :: pr.events ++ [.netGetProfile], pr.items, st2, none⟩

/-- The do/while pagination loop of the incremental path of
GmailConnector.fetchEmails: each page requests the history after the current
accumulator value, processes the messagesAdded entries, then advances the
accumulator to the historyId of the page. -/
def gmailHistGo (p : GmailProvider) (userEmail : String) :
    Nat → GmailState → Option String → GmailGen
  | 0, st, _ => ⟨[], [], st, none⟩
  | fuel + 1, st, pageToken =>
    let startH := st.newHistoryId.getD ""
    let hEv := Event.netHistoryList startH pageToken
    match p.historyPage startH pageToken with
    | .error e => ⟨[hEv], [], st, some e⟩
    | .ok resp =>
      match resp.history with
      | none => ⟨[hEv], [], st, none⟩
      | some hists =>
        if hists.isEmpty then ⟨[hEv], [], st, none⟩
        else
          let pr := gmailFetchIds p userEmail "Message not found, skipping."
            (gmailHistoryIds hists) st
          match pr.err with
          | some e => ⟨hEv :: pr.events, pr.items, pr.state, some e⟩
          | none =>
            let st2 := if truthyS resp.historyId then
                { pr.state with newHistoryId := resp.historyId }
              else pr.state
            if truthyS resp.nextPageToken then
              let g := gmailHistGo p userEmail fuel st2 resp.nextPageToken
              ⟨hEv :: pr.events ++ g.events, pr.items ++ g.items, g.state, g.err⟩
            else ⟨hEv :: pr.events, pr.items, st2, none⟩

/-- The truthy read of syncState.gmail.userEmail.historyId performed by
GmailConnector.fetchEmails. -/
def gmailStartHistoryId (syncState : Option SyncState) (userEmail : String) : Option String :=
  match syncState with
  | none => none
  | some ss =>
    match assocGet ss.gmail userEmail with
    | some v => if v = "" then none else some v
    | none => none

/-- GmailConnector.fetchEmails: full import when no truthy prior historyId
exists for the user, incremental history walk otherwise (with the
accumulator preset to the prior cursor before any page is fetched). -/
def gmailFetchEmails (p : GmailProvider) (fuel : Nat) (userEmail : String)
    (syncState : Option SyncState) : GmailGen :=
  match gmailStartHistoryId syncState userEmail with
  | none => gmailFullGo p userEmail fuel ⟨none, []⟩ none
  | some h => gmailHistGo p userEmail fuel ⟨some h, []⟩ none

/-- GmailConnector.getUpdatedSyncState: empty unless the accumulator holds a
truthy history id, the gmail-keyed cursor otherwise. -/
def gmailGetUpdatedSyncState (st : GmailState) (userEmail : String) : SyncState :=
  if truthyS st.newHistoryId then ⟨[(userEmail, st.newHistoryId.getD "")], [], none⟩
  else SyncState.empty

/-! ## C2: fetch cycles touch no durable state -/

theorem noDurable_nil : noDurable [] := by
  intro x hx; simp at hx

theorem noDurable_append {a b : List Event} (ha : noDurable a) (hb : noDurable b) :
    noDurable (a ++ b) := by
  intro x hx
  rcases List.mem_append.1 hx with h | h
  · exact ha x h
  · exact hb x h

theorem noDurable_cons {e : Event} {l : List Event} (he : e.isDurable = false)
    (hl : noDurable l) : noDurable (e :: l) := by
  intro x hx
  rcases List.mem_cons.1 hx with h | h
  · rw [h]; exact he
  · exact hl x h

theorem noDurable_take {l : List Event} (h : noDurable l) (k : Nat) :
    noDurable (l.take k) :=
  fun x hx => h x (List.mem_of_mem_take hx)

theorem noDurable_fetchAndParseEmail (p : JmapProvider) (st : JmapConnState)
    (email : JMAPEmail) : noDurable (fetchAndParseEmail p st email).1 := by
  unfold fetchAndParseEmail
  split
  · intro x hx; simp at hx; subst hx; rfl
  · intro x hx; simp at hx; subst hx; rfl

theorem noDurable_processEmails (p : JmapProvider) (st : JmapConnState) :
    ∀ l, noDurable (processEmails p st l).1 := by
  intro l
  induction l with
  | nil => intro x hx; simp [processEmails] at hx
  | cons e rest ih =>
    have hf := noDurable_fetchAndParseEmail p st e
    simp only [processEmails]
    cases hres : (fetchAndParseEmail p st e).2 with
    | error err =>
      intro x hx
      dsimp only at hx
      rcases List.mem_append.1 hx with h1 | h2
      · rcases List.mem_append.1 h1 with ha | hb
        · exact hf x ha
        · simp at hb; subst hb; rfl
      · exact ih x h2
    | ok obj =>
      intro x hx
      dsimp only at hx
      rcases List.mem_append.1 hx with h1 | h2
      · exact hf x h1
      · exact ih x h2

theorem noDurable_fetchAllEmailsGo (p : JmapProvider) (allInc : Bool) :
    ∀ fuel pos st, noDurable (fetchAllEmailsGo p allInc fuel pos st).events := by
  intro fuel
  induction fuel with
  | zero => intro pos st; exact noDurable_nil
  | succ f ih =>
    intro pos st
    simp only [fetchAllEmailsGo]
    cases hq : withRetry
        (p.queryT pos (if allInc then none else some (getExcludedMailboxIds st.mailboxCache)))
        5 with
    | error e => exact noDurable_cons rfl noDurable_nil
    | ok resp =>
      dsimp only
      split
      · exact noDurable_cons rfl
          (noDurable_append (noDurable_processEmails p _ resp.list)
            (ih (pos + resp.list.length) _))
      · exact noDurable_cons rfl (noDurable_processEmails p _ resp.list)

theorem noDurable_changesBatches (p : JmapProvider) (st : JmapConnState) :
    ∀ batches, noDurable (changesBatches p st batches).1 := by
  intro batches
  induction batches with
  | nil => exact noDurable_nil
  | cons batch rest ih =>
    simp only [changesBatches]
    cases hq : withRetry (p.getT batch) 5 with
    | error e => exact noDurable_cons rfl noDurable_nil
    | ok list =>
      exact noDurable_cons rfl
        (noDurable_append (noDurable_processEmails p st list) ih)

theorem noDurable_fetchEmailChangesTry (p : JmapProvider) (allInc : Bool)
    (fuel : Nat) (st : JmapConnState) (s : String) :
    noDurable (fetchEmailChangesTry p allInc fuel st s).events := by
  simp only [fetchEmailChangesTry]
  cases hc : withRetry (p.changesT s) 5 with
  | error e => exact noDurable_cons rfl noDurable_nil
  | ok resp =>
    cases resp with
    | methodError t =>
      dsimp only
      split
      · exact noDurable_cons rfl (noDurable_cons rfl
          (noDurable_fetchAllEmailsGo p allInc fuel 0 st))
      · exact noDurable_cons rfl noDurable_nil
    | okResp newState created updated =>
      dsimp only
      split
      · exact noDurable_cons rfl (noDurable_changesBatches p _ _)
      · exact noDurable_cons rfl noDurable_nil

theorem noDurable_fetchEmailChanges (p : JmapProvider) (allInc : Bool)
    (fuel : Nat) (st : JmapConnState) (s : String) :
    noDurable (fetchEmailChanges p allInc fuel st s).events := by
  simp only [fetchEmailChanges]
  have htry := noDurable_fetchEmailChangesTry p allInc fuel st s
  cases he : (fetchEmailChangesTry p allInc fuel st s).err with
  | none => exact htry
  | some e =>
    dsimp only
    split
    · exact noDurable_append htry (noDurable_cons rfl
        (noDurable_fetchAllEmailsGo p allInc fuel 0 _))
    · exact htry

theorem noDurable_jmapFetchEmails (p : JmapProvider) (allInc : Bool)
    (fuel : Nat) (ss : Option SyncState) :
    noDurable (jmapFetchEmails p allInc fuel ss).events := by
  simp only [jmapFetchEmails]
  cases jmapExistingState ss p.accountId with
  | none => exact noDurable_fetchAllEmailsGo p allInc fuel 0 _
  | some s => exact noDurable_fetchEmailChanges p allInc fuel _ s

theorem noDurable_getLabelDetailsGo (p : GmailProvider) :
    ∀ ids acc, noDurable acc.events →
      noDurable (getLabelDetailsGo p ids acc).events := by
  intro ids
  induction ids with
  | nil => intro acc h; exact h
  | cons lid rest ih =>
    intro acc h
    simp only [getLabelDetailsGo]
    cases hc : (acc.cache.find? (fun q => q.1 == lid)).map (fun q => q.2) with
    | some label =>
      exact ih _ (by simp only [labelStep]; split <;> first | exact h | (split <;> exact h))
    | none =>
      cases hl : p.labelGet lid with
      | error e =>
        exact noDurable_append h (noDurable_cons rfl noDurable_nil)
      | ok label =>
        apply ih
        have hbase : noDurable (acc.events ++ [Event.netLabelGet lid]) :=
          noDurable_append h (noDurable_cons rfl noDurable_nil)
        simp only [labelStep]
        split
        · exact hbase
        · split <;> exact hbase

theorem noDurable_fetchSingleMessage (p : GmailProvider) (st : GmailState)
    (mid u : String) : noDurable (fetchSingleMessage p st mid u).1 := by
  simp only [fetchSingleMessage]
  cases hm : p.msgMeta mid with
  | error e => exact noDurable_cons rfl noDurable_nil
  | ok labelIds =>
    dsimp only
    have hla := noDurable_getLabelDetailsGo p (labelIds.getD [])
      ⟨[], st.labelCache, "", [], none⟩ noDurable_nil
    split
    · exact noDurable_cons rfl hla
    · cases hr : p.msgRaw mid with
      | error e =>
        exact noDurable_append (noDurable_cons rfl hla)
          (noDurable_cons rfl noDurable_nil)
      | ok resp =>
        dsimp only
        split
        · exact noDurable_append (noDurable_cons rfl hla)
            (noDurable_cons rfl noDurable_nil)
        · exact noDurable_append (noDurable_cons rfl hla)
            (noDurable_cons rfl noDurable_nil)

theorem noDurable_gmailFetchIds (p : GmailProvider) (u nf : String) :
    ∀ ids st, noDurable (gmailFetchIds p u nf ids st).events := by
  intro ids
  induction ids with
  | nil => intro st; exact noDurable_nil
  | cons mid rest ih =>
    intro st
    simp only [gmailFetchIds]
    have hf := noDurable_fetchSingleMessage p st mid u
    cases hr : (fetchSingleMessage p st mid u).2.2 with
    | error e =>
      dsimp only
      split
      · exact noDurable_append hf (noDurable_cons rfl (ih _))
      · exact hf
    | ok r =>
      cases r with
      | none => exact noDurable_append hf (ih _)
      | some obj => exact noDurable_append hf (ih _)

theorem noDurable_gmailFullGo (p : GmailProvider) (u : String) :
    ∀ fuel st tok, noDurable (gmailFullGo p u fuel st tok).events := by
  intro fuel
  induction fuel with
  | zero => intro st tok; exact noDurable_nil
  | succ f ih =>
    intro st tok
    simp only [gmailFullGo]
    cases hl : p.listPage tok with
    | error e =>
      dsimp only
      exact noDurable_cons rfl noDurable_nil
    | ok resp =>
      dsimp only
      cases hm : resp.messages with
      | none => exact noDurable_cons rfl noDurable_nil
      | some msgs =>
        dsimp only
        split
        · exact noDurable_cons rfl noDurable_nil
        · have hids := noDurable_gmailFetchIds p u
            "Message not found during initial import, skipping." (gmailPageIds msgs) st
          cases hpe : (gmailFetchIds p u
              "Message not found during initial import, skipping."
              (gmailPageIds msgs) st).err with
          | some e => exact noDurable_cons rfl hids
          | none =>
            dsimp only
            split
            · exact noDurable_cons rfl (noDurable_append hids (ih _ _))
            · cases hp : p.profile with
              | error e =>
                exact noDurable_cons rfl
                  (noDurable_append hids (noDurable_cons rfl noDurable_nil))
              | ok prof =>
                exact noDurable_cons rfl
                  (noDurable_append hids (noDurable_cons rfl noDurable_nil))

theorem noDurable_gmailHistGo (p : GmailProvider) (u : String) :
    ∀ fuel st tok, noDurable (gmailHistGo p u fuel st tok).events := by
  intro fuel
  induction fuel with
  | zero => intro st tok; exact noDurable_nil
  | succ f ih =>
    intro st tok
    simp only [gmailHistGo]
    cases hl : p.historyPage (st.newHistoryId.getD "") tok with
    | error e =>
      dsimp only
      exact noDurable_cons rfl noDurable_nil
    | ok resp =>
      dsimp only
      cases hm : resp.history with
      | none => exact noDurable_cons rfl noDurable_nil
      | some hists =>
        dsimp only
        split
        · exact noDurable_cons rfl noDurable_nil
        · have hids := noDurable_gmailFetchIds p u "Message not found, skipping."
            (gmailHistoryIds hists) st
          cases hpe : (gmailFetchIds p u "Message not found, skipping."
              (gmailHistoryIds hists) st).err with
          | some e => exact noDurable_cons rfl hids
          | none =>
            dsimp only
            split
            · exact noDurable_cons rfl (noDurable_append hids (ih _ _))
            · exact noDurable_cons rfl hids

/-- ## C2.
For every fetchEmails run (any provider behaviour, any prior SyncState) and
for every prefix of its consumed event stream (a caller aborting after k
items has observed a prefix), no durable action — database write or import
trigger — is ever performed: fetchEmails only mutates the in-memory
connector state, so discarding the instance discards all cursor movement and
the prior SyncState value, which is an unmodified input, restarts the next
fetch from the same point. -/
theorem fetch_no_durable_writes :
    (∀ (p : JmapProvider) (allInc : Bool) (fuel : Nat) (ss : Option SyncState) (k : Nat),
      noDurable (jmapFetchEmails p allInc fuel ss).events ∧
      noDurable ((jmapFetchEmails p allInc fuel ss).events.take k)) ∧
    (∀ (p : GmailProvider) (fuel : Nat) (u : String) (ss : Option SyncState) (k : Nat),
      noDurable (gmailFetchEmails p fuel u ss).events ∧
      noDurable ((gmailFetchEmails p fuel u ss).events.take k)) := by
  constructor
  · intro p allInc fuel ss k
    have h := noDurable_jmapFetchEmails p allInc fuel ss
    exact ⟨h, noDurable_take h k⟩
  · intro p fuel u ss k
    have h : noDurable (gmailFetchEmails p fuel u ss).events := by
      simp only [gmailFetchEmails]
      cases gmailStartHistoryId ss u with
      | none => exact noDurable_gmailFullGo p u fuel _ _
      | some hh => exact noDurable_gmailHistGo p u fuel _ _
    exact ⟨h, noDurable_take h k⟩

/-! ## C5: what getUpdatedSyncState returns after a drained cycle -/

/-- A parse result with every optional field absent. -/
def emptyParsed : ParsedMail :=
  ⟨[], .undef, .undef, .undef, .undef, none, none, none, ⟨none, []⟩, none⟩

/-- A Gmail provider whose history.list reports no history records: an
incremental cycle against it finds zero new messages. -/
def emptyHistProvider : GmailProvider :=
  { listPage := fun _ => .ok ⟨none, none⟩
    historyPage := fun _ _ => .ok ⟨none, none, none⟩
    msgMeta := fun _ => .ok none
    msgRaw := fun mid => .ok ⟨mid, none, none⟩
    labelGet := fun _ => .ok ⟨none, none⟩
    profile := .ok ⟨none, none⟩
    parse := fun _ => emptyParsed }

/-- Counterexample to C5: a fully drained Gmail incremental cycle that found
zero new messages does not return an empty state — getUpdatedSyncState
returns the prior cursor, because fetchEmails presets the accumulator to the
prior historyId before the first page is requested. -/
theorem gmail_zero_message_cycle_not_empty :
    (gmailFetchEmails emptyHistProvider 3 "u@example.com"
        (some ⟨[("u@example.com", "42")], [], none⟩)).err = none ∧
    (gmailFetchEmails emptyHistProvider 3 "u@example.com"
        (some ⟨[("u@example.com", "42")], [], none⟩)).items = [] ∧
    gmailGetUpdatedSyncState
        (gmailFetchEmails emptyHistProvider 3 "u@example.com"
          (some ⟨[("u@example.com", "42")], [], none⟩)).state "u@example.com" =
      ⟨[("u@example.com", "42")], [], none⟩ ∧
    gmailGetUpdatedSyncState
        (gmailFetchEmails emptyHistProvider 3 "u@example.com"
          (some ⟨[("u@example.com", "42")], [], none⟩)).state "u@example.com" ≠
      SyncState.empty := by
  decide

theorem gmailStartHistoryId_ne_empty {ss : SyncState} {u h : String}
    (hst : gmailStartHistoryId (some ss) u = some h) : h ≠ "" := by
  simp only [gmailStartHistoryId] at hst
  cases hg : assocGet ss.gmail u with
  | none => rw [hg] at hst; cases hst
  | some v =>
    rw [hg] at hst
    by_cases hv : v = ""
    · simp [hv] at hst
    · simp [hv] at hst
      subst hst; exact hv

/-- ## C5 (amended).
For every fully drained fetchEmails cycle, getUpdatedSyncState returns the
cursor held by the in-memory accumulator, keyed by provider family and
account, and returns the empty state exactly when the accumulator holds no
truthy cursor; an incremental Gmail cycle that found zero new messages is
fully drained with the accumulator still holding the prior cursor, so it
returns the prior cursor rather than an empty state. -/
theorem sync_state_accumulation :
    (∀ (st : GmailState) (u : String),
      (truthyS st.newHistoryId = false → gmailGetUpdatedSyncState st u = SyncState.empty) ∧
      (∀ h, st.newHistoryId = some h → h ≠ "" →
        gmailGetUpdatedSyncState st u = ⟨[(u, h)], [], none⟩)) ∧
    (∀ st : JmapConnState,
      ((truthyS st.accountId = false ∨ truthyS st.newEmailState = false) →
        jmapGetUpdatedSyncState st = SyncState.empty) ∧
      (∀ a s, st.accountId = some a → a ≠ "" → st.newEmailState = some s → s ≠ "" →
        st.statusMessage = none →
        jmapGetUpdatedSyncState st = ⟨[], [(a, s)], none⟩)) ∧
    (∀ (p : GmailProvider) (fuel : Nat) (u h : String) (ss : SyncState),
      gmailStartHistoryId (some ss) u = some h →
      p.historyPage h none = .ok ⟨none, none, none⟩ →
      1 ≤ fuel →
      (gmailFetchEmails p fuel u (some ss)).err = none ∧
      (gmailFetchEmails p fuel u (some ss)).items = [] ∧
      gmailGetUpdatedSyncState (gmailFetchEmails p fuel u (some ss)).state u =
        ⟨[(u, h)], [], none⟩) := by
  refine ⟨?_, ?_, ?_⟩
  · intro st u
    constructor
    · intro hf
      simp [gmailGetUpdatedSyncState, hf]
    · intro h hh hne
      have ht : truthyS (some h) = true := by simp [truthyS, hne]
      simp [gmailGetUpdatedSyncState, hh, ht]
  · intro st
    constructor
    · intro hf
      rcases hf with hf | hf
      · simp [jmapGetUpdatedSyncState, hf]
      · simp [jmapGetUpdatedSyncState, hf]
    · intro a s ha hane hs hsne hsm
      simp [jmapGetUpdatedSyncState, ha, hs, hsm, truthyS, hane, hsne]
  · intro p fuel u h ss hst hpage hfuel
    have hne : h ≠ "" := gmailStartHistoryId_ne_empty hst
    obtain ⟨f, rfl⟩ : ∃ f, fuel = f + 1 := ⟨fuel - 1, by omega⟩
    have hrun : gmailFetchEmails p (f + 1) u (some ss) =
        gmailHistGo p u (f + 1) ⟨some h, []⟩ none := by
      simp only [gmailFetchEmails, hst]
    rw [hrun]
    have : gmailHistGo p u (f + 1) ⟨some h, []⟩ none =
        ⟨[.netHistoryList h none], [], ⟨some h, []⟩, none⟩ := by
      simp only [gmailHistGo, Option.getD_some, hpage]
    rw [this]
    have ht : truthyS (some h) = true := by simp [truthyS, hne]
    refine ⟨rfl, rfl, ?_⟩
    simp [gmailGetUpdatedSyncState, ht]

/-- Witness for C5: the concrete zero-history provider drains with the prior
cursor 42 still in place, and the characterizations apply to its final
state. -/
theorem sync_state_accumulation_witness :
    (gmailFetchEmails emptyHistProvider 1 "u@example.com"
        (some ⟨[("u@example.com", "42")], [], none⟩)).err = none ∧
    gmailGetUpdatedSyncState
        (gmailFetchEmails emptyHistProvider 1 "u@example.com"
          (some ⟨[("u@example.com", "42")], [], none⟩)).state "u@example.com" =
      ⟨[("u@example.com", "42")], [], none⟩ := by
  have h := sync_state_accumulation.2.2 emptyHistProvider 1 "u@example.com" "42"
    ⟨[("u@example.com", "42")], [], none⟩ (by decide) rfl (by omega)
  exact ⟨h.1, h.2.2⟩

/-! ## Stepping lemmas for the fetch pipelines -/

theorem jmapFetchEmails_incremental (p : JmapProvider) (allInc : Bool) (fuel : Nat)
    (ss : Option SyncState) (s : String) (h : jmapExistingState ss p.accountId = some s) :
    jmapFetchEmails p allInc fuel ss = fetchEmailChanges p allInc fuel (jmapInitState p) s := by
  simp only [jmapFetchEmails, h]

theorem jmapFetchEmails_full (p : JmapProvider) (allInc : Bool) (fuel : Nat)
    (ss : Option SyncState) (h : jmapExistingState ss p.accountId = none) :
    jmapFetchEmails p allInc fuel ss = fetchAllEmails p allInc fuel (jmapInitState p) := by
  simp only [jmapFetchEmails, h]

theorem fetchEmailChanges_of_try_none (p : JmapProvider) (allInc : Bool) (fuel : Nat)
    (st : JmapConnState) (s : String)
    (h : (fetchEmailChangesTry p allInc fuel st s).err = none) :
    fetchEmailChanges p allInc fuel st s = fetchEmailChangesTry p allInc fuel st s := by
  simp only [fetchEmailChanges, h]

theorem fetchEmailChanges_of_try_rethrow (p : JmapProvider) (allInc : Bool) (fuel : Nat)
    (st : JmapConnState) (s : String) (e : JErr)
    (h : (fetchEmailChangesTry p allInc fuel st s).err = some e)
    (hm : containsCCC e.message = false) :
    fetchEmailChanges p allInc fuel st s = fetchEmailChangesTry p allInc fuel st s := by
  simp only [fetchEmailChanges, h, hm, Bool.false_eq_true, if_false]

theorem fetchEmailChangesTry_okResp (p : JmapProvider) (allInc : Bool) (fuel : Nat)
    (st : JmapConnState) (s : String) (ns : Option String)
    (created updated : Option (List String))
    (hw : withRetry (p.changesT s) 5 = .ok (.okResp ns created updated))
    (hlen : (created.getD [] ++ updated.getD []).length > 0) :
    fetchEmailChangesTry p allInc fuel st s =
      ⟨Event.netJmapChanges s ::
          (changesBatches p (if truthyS ns then { st with newEmailState := ns } else st)
            (chunks50 (created.getD [] ++ updated.getD []))).1,
        (changesBatches p (if truthyS ns then { st with newEmailState := ns } else st)
          (chunks50 (created.getD [] ++ updated.getD []))).2.1,
        (if truthyS ns then { st with newEmailState := ns } else st),
        (changesBatches p (if truthyS ns then { st with newEmailState := ns } else st)
          (chunks50 (created.getD [] ++ updated.getD []))).2.2⟩ := by
  simp only [fetchEmailChangesTry, hw]
  rw [if_pos hlen]

theorem changesBatches_nil (p : JmapProvider) (st : JmapConnState) :
    changesBatches p st [] = ([], [], none) := rfl

theorem changesBatches_cons (p : JmapProvider) (st : JmapConnState)
    (batch : List String) (rest : List (List String)) (list : List JMAPEmail)
    (hq : withRetry (p.getT batch) 5 = .ok list) :
    changesBatches p st (batch :: rest) =
      (Event.netJmapGetEmails batch :: (processEmails p st list).1 ++
          (changesBatches p st rest).1,
        (processEmails p st list).2 ++ (changesBatches p st rest).2.1,
        (changesBatches p st rest).2.2) := by
  simp only [changesBatches, hq]

theorem processEmails_nil (p : JmapProvider) (st : JmapConnState) :
    processEmails p st [] = ([], []) := rfl

theorem processEmails_cons_ok (p : JmapProvider) (st : JmapConnState)
    (em : JMAPEmail) (rest : List JMAPEmail) (obj : EmailObject)
    (h : (fetchAndParseEmail p st em).2 = .ok obj) :
    processEmails p st (em :: rest) =
      ((fetchAndParseEmail p st em).1 ++ (processEmails p st rest).1,
        obj :: (processEmails p st rest).2) := by
  simp only [processEmails, h]

theorem processEmails_cons_err (p : JmapProvider) (st : JmapConnState)
    (em : JMAPEmail) (rest : List JMAPEmail) (er : JErr)
    (h : (fetchAndParseEmail p st em).2 = .error er) :
    processEmails p st (em :: rest) =
      ((fetchAndParseEmail p st em).1 ++
          [Event.logE "Failed to fetch or parse JMAP email"] ++ (processEmails p st rest).1,
        (processEmails p st rest).2) := by
  simp only [processEmails, h]

theorem gmailFetchEmails_incremental (p : GmailProvider) (fuel : Nat) (u : String)
    (ss : Option SyncState) (h0 : String) (h : gmailStartHistoryId ss u = some h0) :
    gmailFetchEmails p fuel u ss = gmailHistGo p u fuel ⟨some h0, []⟩ none := by
  simp only [gmailFetchEmails, h]

theorem gmailFetchEmails_full (p : GmailProvider) (fuel : Nat) (u : String)
    (ss : Option SyncState) (h : gmailStartHistoryId ss u = none) :
    gmailFetchEmails p fuel u ss = gmailFullGo p u fuel ⟨none, []⟩ none := by
  simp only [gmailFetchEmails, h]

theorem gmailFetchIds_nil (p : GmailProvider) (u nf : String) (st : GmailState) :
    gmailFetchIds p u nf [] st = ⟨[], [], st, none⟩ := rfl

theorem gmailFetchIds_cons_ok (p : GmailProvider) (u nf mid : String)
    (rest : List String) (st : GmailState) (obj : EmailObject)
    (h : (fetchSingleMessage p st mid u).2.2 = .ok (some obj)) :
    gmailFetchIds p u nf (mid :: rest) st =
      ⟨(fetchSingleMessage p st mid u).1 ++
          (gmailFetchIds p u nf rest (fetchSingleMessage p st mid u).2.1).events,
        obj :: (gmailFetchIds p u nf rest (fetchSingleMessage p st mid u).2.1).items,
        (gmailFetchIds p u nf rest (fetchSingleMessage p st mid u).2.1).state,
        (gmailFetchIds p u nf rest (fetchSingleMessage p st mid u).2.1).err⟩ := by
  simp only [gmailFetchIds, h]

theorem gmailFetchIds_cons_skip (p : GmailProvider) (u nf mid : String)
    (rest : List String) (st : GmailState) (e : GmailErr)
    (h : (fetchSingleMessage p st mid u).2.2 = .error e)
    (h404 : (e.code == some 404) = true) :
    gmailFetchIds p u nf (mid :: rest) st =
      ⟨(fetchSingleMessage p st mid u).1 ++ Event.logE nf ::
          (gmailFetchIds p u nf rest (fetchSingleMessage p st mid u).2.1).events,
        (gmailFetchIds p u nf rest (fetchSingleMessage p st mid u).2.1).items,
        (gmailFetchIds p u nf rest (fetchSingleMessage p st mid u).2.1).state,
        (gmailFetchIds p u nf rest (fetchSingleMessage p st mid u).2.1).err⟩ := by
  simp only [gmailFetchIds, h, h404, if_true]

theorem gmailFetchIds_cons_abort (p : GmailProvider) (u nf mid : String)
    (rest : List String) (st : GmailState) (e : GmailErr)
    (h : (fetchSingleMessage p st mid u).2.2 = .error e)
    (h404 : (e.code == some 404) = false) :
    gmailFetchIds p u nf (mid :: rest) st =
      ⟨(fetchSingleMessage p st mid u).1, [], (fetchSingleMessage p st mid u).2.1, some e⟩ := by
  simp only [gmailFetchIds, h, h404, Bool.false_eq_true, if_false]

theorem gmailHistGo_page_abort (p : GmailProvider) (u : String) (f : Nat)
    (st : GmailState) (tok : Option String) (resp : GHistResp)
    (hists : List GHistRecord) (e : GmailErr)
    (hp : p.historyPage (st.newHistoryId.getD "") tok = .ok resp)
    (hh : resp.history = some hists) (hne : hists.isEmpty = false)
    (he : (gmailFetchIds p u "Message not found, skipping."
      (gmailHistoryIds hists) st).err = some e) :
    gmailHistGo p u (f + 1) st tok =
      ⟨Event.netHistoryList (st.newHistoryId.getD "") tok ::
          (gmailFetchIds p u "Message not found, skipping." (gmailHistoryIds hists) st).events,
        (gmailFetchIds p u "Message not found, skipping." (gmailHistoryIds hists) st).items,
        (gmailFetchIds p u "Message not found, skipping." (gmailHistoryIds hists) st).state,
        some e⟩ := by
  simp only [gmailHistGo, hp]
  rw [hh]
  simp only [hne, Bool.false_eq_true, if_false, he]

theorem gmailHistGo_page_done (p : GmailProvider) (u : String) (f : Nat)
    (st : GmailState) (tok : Option String) (resp : GHistResp)
    (hists : List GHistRecord)
    (hp : p.historyPage (st.newHistoryId.getD "") tok = .ok resp)
    (hh : resp.history = some hists) (hne : hists.isEmpty = false)
    (he : (gmailFetchIds p u "Message not found, skipping."
      (gmailHistoryIds hists) st).err = none)
    (hlast : truthyS resp.nextPageToken = false) :
    gmailHistGo p u (f + 1) st tok =
      ⟨Event.netHistoryList (st.newHistoryId.getD "") tok ::
          (gmailFetchIds p u "Message not found, skipping." (gmailHistoryIds hists) st).events,
        (gmailFetchIds p u "Message not found, skipping." (gmailHistoryIds hists) st).items,
        (if truthyS resp.historyId then
          { (gmailFetchIds p u "Message not found, skipping."
              (gmailHistoryIds hists) st).state with newHistoryId := resp.historyId }
         else (gmailFetchIds p u "Message not found, skipping."
            (gmailHistoryIds hists) st).state),
        none⟩ := by
  simp only [gmailHistGo, hp]
  rw [hh]
  simp only [hne, Bool.false_eq_true, if_false, he, hlast]

/-! ## C6: fate of a cycle when one message fails -/

theorem withRetry_const_error {α : Type} (e : JErr) :
    withRetry (fun _ => (.error e : Except JErr α)) 5 = .error e := by
  cases hr : isRetryable e with
  | false => exact withRetry_first_error _ _ rfl hr
  | true =>
    show withRetryGo _ 5 5 1 = .error e
    exact withRetryGo_exhaust _ 5 e 5 1 (by omega) (by omega)
      (fun a _ _ => ⟨e, rfl, hr⟩) rfl

/-- A Gmail provider for an incremental cycle announcing m1, m2, m3, where
the RAW fetch of m2 fails with a given error. -/
def c6GmailProvider (e : GmailErr) : GmailProvider :=
  { listPage := fun _ => .ok ⟨none, none⟩
    historyPage := fun _ _ => .ok
      ⟨some [⟨some [⟨some ⟨some "m1"⟩⟩, ⟨some ⟨some "m2"⟩⟩, ⟨some ⟨some "m3"⟩⟩]⟩],
        none, some "H9"⟩
    msgMeta := fun _ => .ok none
    msgRaw := fun mid =>
      if mid = "m2" then .error e else .ok ⟨mid, some mid, none⟩
    labelGet := fun _ => .ok ⟨none, none⟩
    profile := .ok ⟨none, none⟩
    parse := fun _ => emptyParsed }

/-- The three JMAP emails of the C6 scenario (the blob of e2 is b2). -/
def c6Em1 : JMAPEmail := ⟨"e1", "b1", "T1", [], "", ""⟩

def c6Em2 : JMAPEmail := ⟨"e2", "b2", "T2", [], "", ""⟩

def c6Em3 : JMAPEmail := ⟨"e3", "b3", "T3", [], "", ""⟩

/-- A JMAP provider for an incremental cycle whose Email/changes announces
e1, e2, e3 as created, where the blob download of e2 fails with a given
error on every attempt. -/
def c6JmapProvider (e : JErr) : JmapProvider :=
  { accountId := "acc"
    username := "u"
    mailboxes := []
    queryT := fun _ _ _ => .ok ⟨[], [], none⟩
    changesT := fun _ _ => .ok (.okResp (some "S2") (some ["e1", "e2", "e3"]) (some []))
    getT := fun ids _ => .ok (ids.filterMap (fun i =>
      if i = "e1" then some c6Em1
      else if i = "e2" then some c6Em2
      else if i = "e3" then some c6Em3 else none))
    blobT := fun b _ => if b = "b2" then .error e else .ok b
    parse := fun _ => emptyParsed }

/-- The prior state of the C6 Gmail scenario: cursor 42 for the user u. -/
def c6Prior : SyncState := ⟨[("u", "42")], [], none⟩

/-- The prior state of the C6 JMAP scenario: cursor S0 for account acc. -/
def c6JmapPrior : SyncState := ⟨[], [("acc", "S0")], none⟩

/-- Counterexample to C6: in the JMAP incremental path an exhausted-retry
failure on a single message that is not item-not-found (a 500 on the blob of
e2, retried to exhaustion) does not abort the cycle: the run drains without
error and still yields the two other messages. -/
theorem jmap_message_failure_not_propagated :
    (jmapFetchEmails (c6JmapProvider (.axios none (some 500) "boom")) true 1
        (some c6JmapPrior)).err = none ∧
    (jmapFetchEmails (c6JmapProvider (.axios none (some 500) "boom")) true 1
        (some c6JmapPrior)).items.map (fun o => o.id) = ["e1", "e3"] := by
  decide

/-- The outcome of the per-message failure scenarios, for an arbitrary error
on the failing message. -/
theorem c6_jmap_run (e : JErr) :
    (jmapFetchEmails (c6JmapProvider e) true 1 (some c6JmapPrior)).err = none ∧
    (jmapFetchEmails (c6JmapProvider e) true 1 (some c6JmapPrior)).items.map
      (fun o => o.id) = ["e1", "e3"] := by
  have hb2 : (c6JmapProvider e).blobT "b2" = fun _ => .error e := rfl
  have hw2 : withRetry ((c6JmapProvider e).blobT "b2") 5 = .error e := by
    rw [hb2]; exact withRetry_const_error _
  rw [jmapFetchEmails_incremental (c6JmapProvider e) true 1 (some c6JmapPrior) "S0" rfl]
  have hfe2 : (fetchAndParseEmail (c6JmapProvider e)
      ⟨some "acc", some "S2", [], none⟩ c6Em2).2 = .error e := by
    simp only [fetchAndParseEmail]
    rw [show c6Em2.blobId = "b2" from rfl, hw2]
  have hfe1 : (fetchAndParseEmail (c6JmapProvider e)
      ⟨some "acc", some "S2", [], none⟩ c6Em1).2 =
      .ok (jmapEmailObject (c6JmapProvider e) ⟨some "acc", some "S2", [], none⟩
        c6Em1 "b1" emptyParsed) := rfl
  have hfe3 : (fetchAndParseEmail (c6JmapProvider e)
      ⟨some "acc", some "S2", [], none⟩ c6Em3).2 =
      .ok (jmapEmailObject (c6JmapProvider e) ⟨some "acc", some "S2", [], none⟩
        c6Em3 "b3" emptyParsed) := rfl
  have hpe : (processEmails (c6JmapProvider e)
      ⟨some "acc", some "S2", [], none⟩ [c6Em1, c6Em2, c6Em3]).2 =
      [jmapEmailObject (c6JmapProvider e) ⟨some "acc", some "S2", [], none⟩
          c6Em1 "b1" emptyParsed,
        jmapEmailObject (c6JmapProvider e) ⟨some "acc", some "S2", [], none⟩
          c6Em3 "b3" emptyParsed] := by
    rw [processEmails_cons_ok _ _ _ _ _ hfe1]
    dsimp only
    rw [processEmails_cons_err _ _ _ _ _ hfe2]
    rw [processEmails_cons_ok _ _ _ _ _ hfe3]
    rfl
  have hcb : (changesBatches (c6JmapProvider e)
      ⟨some "acc", some "S2", [], none⟩ (chunks50 ["e1", "e2", "e3"])).2 =
      ((processEmails (c6JmapProvider e)
        ⟨some "acc", some "S2", [], none⟩ [c6Em1, c6Em2, c6Em3]).2, none) := by
    rw [show chunks50 ["e1", "e2", "e3"] = [["e1", "e2", "e3"]] from rfl]
    rw [changesBatches_cons (c6JmapProvider e) ⟨some "acc", some "S2", [], none⟩
      ["e1", "e2", "e3"] [] [c6Em1, c6Em2, c6Em3] rfl]
    rw [changesBatches_nil]
    simp
  have htry := fetchEmailChangesTry_okResp (c6JmapProvider e) true 1
    (jmapInitState (c6JmapProvider e)) "S0" (some "S2")
    (some ["e1", "e2", "e3"]) (some []) rfl (by decide)
  rw [show (if truthyS (some "S2") then
      { jmapInitState (c6JmapProvider e) with newEmailState := some "S2" }
      else jmapInitState (c6JmapProvider e)) =
      (⟨some "acc", some "S2", [], none⟩ : JmapConnState) from rfl] at htry
  rw [show ((some ["e1", "e2", "e3"] : Option (List String)).getD [] ++
      (some ([] : List String)).getD []) = ["e1", "e2", "e3"] from rfl] at htry
  have herr : (fetchEmailChangesTry (c6JmapProvider e) true 1
      (jmapInitState (c6JmapProvider e)) "S0").err = none := by
    rw [htry]
    show (changesBatches _ _ _).2.2 = none
    rw [show (changesBatches (c6JmapProvider e)
      ⟨some "acc", some "S2", [], none⟩ (chunks50 ["e1", "e2", "e3"])).2.2 =
        ((changesBatches (c6JmapProvider e)
          ⟨some "acc", some "S2", [], none⟩ (chunks50 ["e1", "e2", "e3"])).2).2 from rfl]
    rw [hcb]
  rw [fetchEmailChanges_of_try_none _ _ _ _ _ herr, htry]
  refine ⟨?_, ?_⟩
  · show (changesBatches _ _ _).2.2 = none
    rw [show (changesBatches (c6JmapProvider e)
      ⟨some "acc", some "S2", [], none⟩ (chunks50 ["e1", "e2", "e3"])).2.2 =
        ((changesBatches (c6JmapProvider e)
          ⟨some "acc", some "S2", [], none⟩ (chunks50 ["e1", "e2", "e3"])).2).2 from rfl]
    rw [hcb]
  · show ((changesBatches _ _ _).2.1).map _ = _
    rw [show (changesBatches (c6JmapProvider e)
      ⟨some "acc", some "S2", [], none⟩ (chunks50 ["e1", "e2", "e3"])).2.1 =
        ((changesBatches (c6JmapProvider e)
          ⟨some "acc", some "S2", [], none⟩ (chunks50 ["e1", "e2", "e3"])).2).1 from rfl]
    rw [hcb]
    rw [hpe]
    rfl

/-- ## C6 (amended).
In the Gmail connector a per-message failure continues the cycle exactly
when its code is 404 (logged and skipped, the page cursor still advances)
while any other per-message failure aborts the cycle with the accumulator
left at the prior cursor; in the JMAP connector, by contrast, every
per-message fetch failure — item-not-found or not — is logged and skipped
and the cycle continues. -/
theorem message_failure_policy :
    (∀ e : GmailErr, (e.code == some 404) = true →
      (gmailFetchEmails (c6GmailProvider e) 1 "u" (some c6Prior)).err = none ∧
      (gmailFetchEmails (c6GmailProvider e) 1 "u" (some c6Prior)).items.map
          (fun o => o.id) = ["m1", "m3"] ∧
      (gmailFetchEmails (c6GmailProvider e) 1 "u" (some c6Prior)).state.newHistoryId =
        some "H9") ∧
    (∀ e : GmailErr, (e.code == some 404) = false →
      (gmailFetchEmails (c6GmailProvider e) 1 "u" (some c6Prior)).err = some e ∧
      (gmailFetchEmails (c6GmailProvider e) 1 "u" (some c6Prior)).items.map
          (fun o => o.id) = ["m1"] ∧
      (gmailFetchEmails (c6GmailProvider e) 1 "u" (some c6Prior)).state.newHistoryId =
        some "42") ∧
    (∀ e : JErr,
      (jmapFetchEmails (c6JmapProvider e) true 1 (some c6JmapPrior)).err = none ∧
      (jmapFetchEmails (c6JmapProvider e) true 1 (some c6JmapPrior)).items.map
        (fun o => o.id) = ["e1", "e3"]) := by
  have hists : List GHistRecord :=
    [⟨some [⟨some ⟨some "m1"⟩⟩, ⟨some ⟨some "m2"⟩⟩, ⟨some ⟨some "m3"⟩⟩]⟩]
  refine ⟨?_, ?_, c6_jmap_run⟩
  · intro e h404
    rw [gmailFetchEmails_incremental (c6GmailProvider e) 1 "u" (some c6Prior) "42" rfl]
    have hm1 : (fetchSingleMessage (c6GmailProvider e) ⟨some "42", []⟩ "m1" "u").2.2 =
        .ok (some (gmailEmailObject ⟨"m1", some "m1", none⟩ "u" "m1" emptyParsed "" [])) := rfl
    have hm2 : (fetchSingleMessage (c6GmailProvider e) ⟨some "42", []⟩ "m2" "u").2.2 =
        .error e := rfl
    have hm3 : (fetchSingleMessage (c6GmailProvider e) ⟨some "42", []⟩ "m3" "u").2.2 =
        .ok (some (gmailEmailObject ⟨"m3", some "m3", none⟩ "u" "m3" emptyParsed "" [])) := rfl
    have hids : gmailFetchIds (c6GmailProvider e) "u" "Message not found, skipping."
        ["m1", "m2", "m3"] ⟨some "42", []⟩ =
        ⟨(fetchSingleMessage (c6GmailProvider e) ⟨some "42", []⟩ "m1" "u").1 ++
            (fetchSingleMessage (c6GmailProvider e) ⟨some "42", []⟩ "m2" "u").1 ++
            Event.logE "Message not found, skipping." ::
            ((fetchSingleMessage (c6GmailProvider e) ⟨some "42", []⟩ "m3" "u").1 ++ []),
          [gmailEmailObject ⟨"m1", some "m1", none⟩ "u" "m1" emptyParsed "" [],
            gmailEmailObject ⟨"m3", some "m3", none⟩ "u" "m3" emptyParsed "" []],
          ⟨some "42", []⟩, none⟩ := by
      rw [gmailFetchIds_cons_ok _ _ _ _ _ _ _ hm1]
      rw [show (fetchSingleMessage (c6GmailProvider e) ⟨some "42", []⟩ "m1" "u").2.1 =
          (⟨some "42", []⟩ : GmailState) from rfl]
      rw [gmailFetchIds_cons_skip _ _ _ _ _ _ _ hm2 h404]
      rw [show (fetchSingleMessage (c6GmailProvider e) ⟨some "42", []⟩ "m2" "u").2.1 =
          (⟨some "42", []⟩ : GmailState) from rfl]
      rw [gmailFetchIds_cons_ok _ _ _ _ _ _ _ hm3]
      rw [show (fetchSingleMessage (c6GmailProvider e) ⟨some "42", []⟩ "m3" "u").2.1 =
          (⟨some "42", []⟩ : GmailState) from rfl]
      rw [gmailFetchIds_nil]
      simp
    have hdone := gmailHistGo_page_done (c6GmailProvider e) "u" 0 ⟨some "42", []⟩ none
      ⟨some [⟨some [⟨some ⟨some "m1"⟩⟩, ⟨some ⟨some "m2"⟩⟩, ⟨some ⟨some "m3"⟩⟩]⟩],
        none, some "H9"⟩
      [⟨some [⟨some ⟨some "m1"⟩⟩, ⟨some ⟨some "m2"⟩⟩, ⟨some ⟨some "m3"⟩⟩]⟩]
      rfl rfl rfl (by rw [show gmailHistoryIds
        [⟨some [⟨some ⟨some "m1"⟩⟩, ⟨some ⟨some "m2"⟩⟩, ⟨some ⟨some "m3"⟩⟩]⟩] =
        ["m1", "m2", "m3"] from rfl, hids]) rfl
    rw [show (0 : Nat) + 1 = 1 from rfl] at hdone
    rw [hdone]
    rw [show gmailHistoryIds
        [⟨some [⟨some ⟨some "m1"⟩⟩, ⟨some ⟨some "m2"⟩⟩, ⟨some ⟨some "m3"⟩⟩]⟩] =
        ["m1", "m2", "m3"] from rfl, hids]
    exact ⟨rfl, rfl, rfl⟩
  · intro e h404
    rw [gmailFetchEmails_incremental (c6GmailProvider e) 1 "u" (some c6Prior) "42" rfl]
    have hm1 : (fetchSingleMessage (c6GmailProvider e) ⟨some "42", []⟩ "m1" "u").2.2 =
        .ok (some (gmailEmailObject ⟨"m1", some "m1", none⟩ "u" "m1" emptyParsed "" [])) := rfl
    have hm2 : (fetchSingleMessage (c6GmailProvider e) ⟨some "42", []⟩ "m2" "u").2.2 =
        .error e := rfl
    have hids : gmailFetchIds (c6GmailProvider e) "u" "Message not found, skipping."
        ["m1", "m2", "m3"] ⟨some "42", []⟩ =
        ⟨(fetchSingleMessage (c6GmailProvider e) ⟨some "42", []⟩ "m1" "u").1 ++
            (fetchSingleMessage (c6GmailProvider e) ⟨some "42", []⟩ "m2" "u").1,
          [gmailEmailObject ⟨"m1", some "m1", none⟩ "u" "m1" emptyParsed "" []],
          ⟨some "42", []⟩, some e⟩ := by
      rw [gmailFetchIds_cons_ok _ _ _ _ _ _ _ hm1]
      rw [show (fetchSingleMessage (c6GmailProvider e) ⟨some "42", []⟩ "m1" "u").2.1 =
          (⟨some "42", []⟩ : GmailState) from rfl]
      rw [gmailFetchIds_cons_abort _ _ _ _ _ _ _ hm2 h404]
      rw [show (fetchSingleMessage (c6GmailProvider e) ⟨some "42", []⟩ "m2" "u").2.1 =
          (⟨some "42", []⟩ : GmailState) from rfl]
    have habort := gmailHistGo_page_abort (c6GmailProvider e) "u" 0 ⟨some "42", []⟩ none
      ⟨some [⟨some [⟨some ⟨some "m1"⟩⟩, ⟨some ⟨some "m2"⟩⟩, ⟨some ⟨some "m3"⟩⟩]⟩],
        none, some "H9"⟩
      [⟨some [⟨some ⟨some "m1"⟩⟩, ⟨some ⟨some "m2"⟩⟩, ⟨some ⟨some "m3"⟩⟩]⟩] e
      rfl rfl rfl (by rw [show gmailHistoryIds
        [⟨some [⟨some ⟨some "m1"⟩⟩, ⟨some ⟨some "m2"⟩⟩, ⟨some ⟨some "m3"⟩⟩]⟩] =
        ["m1", "m2", "m3"] from rfl, hids])
    rw [show (0 : Nat) + 1 = 1 from rfl] at habort
    rw [habort]
    rw [show gmailHistoryIds
        [⟨some [⟨some ⟨some "m1"⟩⟩, ⟨some ⟨some "m2"⟩⟩, ⟨some ⟨some "m3"⟩⟩]⟩] =
        ["m1", "m2", "m3"] from rfl, hids]
    exact ⟨rfl, rfl, rfl⟩

/-- Witness for C6: the amended policy applied at a 404 and at a 500 for
Gmail, and at a 400 for JMAP. -/
theorem message_failure_policy_witness :
    (gmailFetchEmails (c6GmailProvider ⟨some 404, "nf"⟩) 1 "u" (some c6Prior)).err = none ∧
    (gmailFetchEmails (c6GmailProvider ⟨some 500, "boom"⟩) 1 "u" (some c6Prior)).err =
      some ⟨some 500, "boom"⟩ ∧
    (jmapFetchEmails (c6JmapProvider (.axios none (some 400) "bad")) true 1
        (some c6JmapPrior)).err = none := by
  refine ⟨(message_failure_policy.1 ⟨some 404, "nf"⟩ (by decide)).1,
    (message_failure_policy.2.1 ⟨some 500, "boom"⟩ (by decide)).1,
    (message_failure_policy.2.2 (.axios none (some 400) "bad")).1⟩

/-! ## C7: thread identifier resolution -/

/-- A Gmail provider whose single message m1 carries the provider-native
thread id TG in the RAW response while its headers derive the id root@x. -/
def c7Provider : GmailProvider :=
  { listPage := fun _ => .ok ⟨some [⟨some "m1"⟩], none⟩
    historyPage := fun _ _ => .ok ⟨none, none, none⟩
    msgMeta := fun _ => .ok none
    msgRaw := fun mid => .ok ⟨mid, some "raw", some "TG"⟩
    labelGet := fun _ => .ok ⟨none, none⟩
    profile := .ok ⟨some "u", some "H1"⟩
    parse := fun _ =>
      { emptyParsed with headers := ⟨some "irt@x", ["root@x"]⟩ } }

/-- Counterexample to C7: a Gmail message that carries a native thread id
(TG, present in the RAW response) does not resolve to it — the connector
derives the thread id from the In-Reply-To / References headers and never
reads the native id. -/
theorem native_thread_id_ignored :
    c7Provider.msgRaw "m1" = .ok ⟨"m1", some "raw", some "TG"⟩ ∧
    (gmailFetchEmails c7Provider 1 "u" none).items.map (fun o => o.threadId) =
      [some "root@x"] ∧
    (gmailFetchEmails c7Provider 1 "u" none).items.map (fun o => o.threadId) ≠
      [some "TG"] :=
  ⟨rfl, by decide, by decide⟩

/-- ## C7 (amended).
The thread identifier prefers the header-derived id over the provider-native
one: the Gmail connector always uses the id derived from the In-Reply-To /
References chain root, never reading the native thread id of the RAW
response; the JMAP connector uses the derived id whenever it is truthy and
falls back to the native JMAP thread id only when header derivation yields
nothing; and the derived id is determined by the chain root, so two header
sets with the same root derive the same id. -/
theorem thread_id_resolution :
    (∀ (resp : GRawResp) (u raw : String) (parsed : ParsedMail)
        (path : String) (tags : List String),
      (gmailEmailObject resp u raw parsed path tags).threadId =
        getThreadId parsed.headers) ∧
    (∀ (p : JmapProvider) (st : JmapConnState) (em : JMAPEmail)
        (raw : String) (parsed : ParsedMail),
      (∀ s, getThreadId parsed.headers = some s → s ≠ "" →
        (jmapEmailObject p st em raw parsed).threadId = some s) ∧
      (getThreadId parsed.headers = none →
        (jmapEmailObject p st em raw parsed).threadId = some em.threadId) ∧
      (getThreadId parsed.headers = some "" →
        (jmapEmailObject p st em raw parsed).threadId = some em.threadId)) ∧
    (∀ h1 h2 : MailHeaders, h1.references ≠ [] →
      h1.references.head? = h2.references.head? → getThreadId h1 = getThreadId h2) := by
  refine ⟨?_, ?_, ?_⟩
  · intro resp u raw parsed path tags
    rfl
  · intro p st em raw parsed
    refine ⟨?_, ?_, ?_⟩
    · intro s hs hne
      simp [jmapEmailObject, jsOr, hs, hne]
    · intro hs
      simp [jmapEmailObject, jsOr, hs]
    · intro hs
      simp [jmapEmailObject, jsOr, hs]
  · intro h1 h2 hne hroot
    cases hr1 : h1.references with
    | nil => exact absurd hr1 hne
    | cons r rs =>
      rw [hr1] at hroot
      simp only [List.head?] at hroot
      cases hr2 : h2.references with
      | nil => rw [hr2] at hroot; simp at hroot
      | cons q qs =>
        rw [hr2] at hroot
        simp only [List.head?] at hroot
        simp only [getThreadId, hr1, hr2]
        exact hroot

/-- Witness for C7: the preference evaluated on a concrete parse result with
References root root@x and native JMAP thread id T9. -/
theorem thread_id_resolution_witness :
    (jmapEmailObject (c6JmapProvider (.thrown "x")) ⟨some "acc", none, [], none⟩
        ⟨"e9", "b9", "T9", [], "", ""⟩ "raw"
        { emptyParsed with headers := ⟨none, ["root@x"]⟩ }).threadId = some "root@x" ∧
    (jmapEmailObject (c6JmapProvider (.thrown "x")) ⟨some "acc", none, [], none⟩
        ⟨"e9", "b9", "T9", [], "", ""⟩ "raw"
        { emptyParsed with headers := ⟨none, []⟩ }).threadId = some "T9" := by
  constructor
  · exact (thread_id_resolution.2.1 (c6JmapProvider (.thrown "x"))
      ⟨some "acc", none, [], none⟩ ⟨"e9", "b9", "T9", [], "", ""⟩ "raw"
      { emptyParsed with headers := ⟨none, ["root@x"]⟩ }).1 "root@x" rfl (by decide)
  · exact (thread_id_resolution.2.1 (c6JmapProvider (.thrown "x"))
      ⟨some "acc", none, [], none⟩ ⟨"e9", "b9", "T9", [], "", ""⟩ "raw"
      { emptyParsed with headers := ⟨none, []⟩ }).2.1 rfl

/-! ## C4: full-import cursor anchoring -/

/-- Modelled from the spec: the provider-side change-log semantics (the
provider is an external collaborator, not code of this repository).  The
spec defines incremental sync as a fetch of only the delta since the last
cursor, so a history listing from a start cursor returns exactly the log
entries strictly after it. -/
def histAfter (log : List (Nat × String)) (h : Nat) : List (Nat × String) :=
  log.filter (fun en => decide (h < en.1))

/-- Modelled from the spec: a Gmail provider driven by a change log of
(history position, message id) pairs, a fixed full-scan snapshot and the
token current at capture time.  history.list returns the log entries
strictly after the requested cursor, one messagesAdded record each;
getProfile reports the current token; dec is
the provider-side reading of its own opaque cursor strings. -/
def logGmailProvider (dec : String → Nat) (log : List (Nat × String))
    (snapshot : List String) (currentHid : String) : GmailProvider :=
  { listPage := fun _ => .ok ⟨some (snapshot.map (fun mid => ⟨some mid⟩)), none⟩
    historyPage := fun start _ =>
      .ok ⟨(if (histAfter log (dec start)).isEmpty then none
          else some ((histAfter log (dec start)).map
            (fun en => ⟨some [⟨some ⟨some en.2⟩⟩]⟩))),
        none, some currentHid⟩
    msgMeta := fun _ => .ok none
    msgRaw := fun mid => .ok ⟨mid, some mid, none⟩
    labelGet := fun _ => .ok ⟨none, none⟩
    profile := .ok ⟨some "u", some currentHid⟩
    parse := fun _ => emptyParsed }

/-- Counterexample to C4: with change log [(1, m1), (2, m2)], where m2
arrives during the full scan (the snapshot pagination only surfaces m1) and
the token is read after enumeration completes (capturing 2, which covers
m2), the next incremental cycle from cursor 2 yields nothing: the
late-arriving message is surfaced zero times by the next incremental cycle,
not exactly once. -/
theorem late_arrival_not_surfaced_next_cycle :
    (gmailFetchEmails (logGmailProvider (fun s => if s = "2" then 2 else 0) [(1, "m1"), (2, "m2")] ["m1"] "2")
        1 "u" none).items.map (fun o => o.id) = ["m1"] ∧
    gmailGetUpdatedSyncState
        (gmailFetchEmails (logGmailProvider (fun s => if s = "2" then 2 else 0) [(1, "m1"), (2, "m2")] ["m1"] "2")
          1 "u" none).state "u" = ⟨[("u", "2")], [], none⟩ ∧
    (gmailFetchEmails (logGmailProvider (fun s => if s = "2" then 2 else 0) [(1, "m1"), (2, "m2")] ["m1"] "2")
        1 "u" (some ⟨[("u", "2")], [], none⟩)).items = [] ∧
    ((gmailFetchEmails (logGmailProvider (fun s => if s = "2" then 2 else 0) [(1, "m1"), (2, "m2")] ["m1"] "2")
        1 "u" (some ⟨[("u", "2")], [], none⟩)).items.map (fun o => o.id)).count "m2" = 0 := by
  decide

theorem gmailHistGo_no_history (p : GmailProvider) (u : String) (f : Nat)
    (st : GmailState) (tok : Option String) (resp : GHistResp)
    (hp : p.historyPage (st.newHistoryId.getD "") tok = .ok resp)
    (hh : resp.history = none) :
    gmailHistGo p u (f + 1) st tok =
      ⟨[.netHistoryList (st.newHistoryId.getD "") tok], [], st, none⟩ := by
  simp only [gmailHistGo, hp]
  rw [hh]

theorem gmailHistoryIds_singletons : ∀ l : List (Nat × String),
    gmailHistoryIds (l.map (fun en => ⟨some [⟨some ⟨some en.2⟩⟩]⟩)) = l.map Prod.snd := by
  intro l
  induction l with
  | nil => rfl
  | cons x xs ih =>
    simp only [gmailHistoryIds, List.map_cons, List.flatMap_cons, Option.getD_some] at ih ⊢
    simp only [List.filterMap_append] at ih ⊢
    rw [ih]
    rfl

theorem logFetchIds_ok (dec : String → Nat) (log : List (Nat × String))
    (snapshot : List String) (cur u nf : String) : ∀ (ids : List String) (st : GmailState),
    gmailFetchIds (logGmailProvider dec log snapshot cur) u nf ids st =
      ⟨ids.flatMap (fun mid => [Event.netGetMessageMeta mid, Event.netGetMessageRaw mid]),
        ids.map (fun mid => gmailEmailObject ⟨mid, some mid, none⟩ u mid emptyParsed "" []),
        st, none⟩ := by
  intro ids
  induction ids with
  | nil => intro st; rfl
  | cons mid rest ih =>
    intro st
    have hm : (fetchSingleMessage (logGmailProvider dec log snapshot cur) st mid u).2.2 =
        .ok (some (gmailEmailObject ⟨mid, some mid, none⟩ u mid emptyParsed "" [])) := rfl
    rw [gmailFetchIds_cons_ok _ _ _ _ _ _ _ hm]
    rw [show (fetchSingleMessage (logGmailProvider dec log snapshot cur) st mid u).2.1 = st
      from rfl]
    rw [ih st]
    rw [show (fetchSingleMessage (logGmailProvider dec log snapshot cur) st mid u).1 =
        [Event.netGetMessageMeta mid, Event.netGetMessageRaw mid] from rfl]
    simp

theorem logProvider_start (hs : String) (hne : hs ≠ "") :
    gmailStartHistoryId (some ⟨[("u", hs)], [], none⟩) "u" = some hs := by
  simp [gmailStartHistoryId, assocGet, List.find?, hne]

theorem logProvider_incremental_items (dec : String → Nat) (log : List (Nat × String))
    (snapshot : List String) (cur hs : String) (f : Nat) (hne : hs ≠ "")
    (hnonempty : (histAfter log (dec hs)).isEmpty = false) :
    (gmailFetchEmails (logGmailProvider dec log snapshot cur) (f + 1) "u"
        (some ⟨[("u", hs)], [], none⟩)).items.map (fun o => o.id) =
      (histAfter log (dec hs)).map Prod.snd := by
  rw [gmailFetchEmails_incremental _ _ _ _ hs (logProvider_start hs hne)]
  have hp : (logGmailProvider dec log snapshot cur).historyPage
      ((⟨some hs, []⟩ : GmailState).newHistoryId.getD "") none =
      .ok ⟨some ((histAfter log (dec hs)).map
          (fun en => ⟨some [⟨some ⟨some en.2⟩⟩]⟩)), none, some cur⟩ := by
    simp only [logGmailProvider, Option.getD_some, hnonempty, Bool.false_eq_true, if_false]
  have hmapne : ((histAfter log (dec hs)).map
      (fun en => (⟨some [⟨some ⟨some en.2⟩⟩]⟩ : GHistRecord))).isEmpty = false := by
    cases hcase : histAfter log (dec hs) with
    | nil => rw [hcase] at hnonempty; simp at hnonempty
    | cons x xs => simp [hcase]
  have hids := logFetchIds_ok dec log snapshot cur "u" "Message not found, skipping."
    (gmailHistoryIds ((histAfter log (dec hs)).map
      (fun en => ⟨some [⟨some ⟨some en.2⟩⟩]⟩))) ⟨some hs, []⟩
  have hdone := gmailHistGo_page_done (logGmailProvider dec log snapshot cur) "u" f
    ⟨some hs, []⟩ none
    ⟨some ((histAfter log (dec hs)).map (fun en => ⟨some [⟨some ⟨some en.2⟩⟩]⟩)),
      none, some cur⟩
    ((histAfter log (dec hs)).map (fun en => ⟨some [⟨some ⟨some en.2⟩⟩]⟩))
    hp rfl hmapne (by rw [hids]) rfl
  rw [hdone]
  rw [hids]
  dsimp only
  rw [gmailHistoryIds_singletons]
  rw [List.map_map]
  rw [show ((fun o => EmailObject.id o) ∘ fun mid =>
      gmailEmailObject ⟨mid, some mid, none⟩ "u" mid emptyParsed "" []) =
      (fun mid => mid) from funext (fun mid => rfl)]
  rw [List.map_id']

theorem logProvider_incremental_empty (dec : String → Nat) (log : List (Nat × String))
    (snapshot : List String) (cur hs : String) (f : Nat) (hne : hs ≠ "")
    (hempty : (histAfter log (dec hs)).isEmpty = true) :
    (gmailFetchEmails (logGmailProvider dec log snapshot cur) (f + 1) "u"
        (some ⟨[("u", hs)], [], none⟩)).items = [] := by
  rw [gmailFetchEmails_incremental _ _ _ _ hs (logProvider_start hs hne)]
  have hp : (logGmailProvider dec log snapshot cur).historyPage
      ((⟨some hs, []⟩ : GmailState).newHistoryId.getD "") none =
      .ok ⟨none, none, some cur⟩ := by
    simp only [logGmailProvider, Option.getD_some, hempty, if_true]
  rw [gmailHistGo_no_history _ _ _ _ _ _ hp rfl]

/-- ## C4 (amended).
The full import captures the provider token only after the enumeration
completes (the getProfile capture is the last provider event of the run and
the captured cursor is the token current at that moment); under the
spec-modelled delta semantics of the change log, a message whose history
position lies strictly after the captured cursor is surfaced by the next
incremental cycle exactly once, while a message that arrived during the scan
(at or before the captured cursor) is not surfaced by the next incremental
cycle at all — it is surfaced only if the paginated enumeration itself
included it. -/
theorem full_import_cursor_anchor :
    ((gmailFetchEmails (logGmailProvider (fun s => if s = "2" then 2 else 0) [(1, "m1"), (2, "m2")] ["m1"] "2")
        1 "u" none).events.getLast? = some .netGetProfile ∧
      (gmailFetchEmails (logGmailProvider (fun s => if s = "2" then 2 else 0) [(1, "m1"), (2, "m2")] ["m1"] "2")
        1 "u" none).state.newHistoryId = some "2") ∧
    (∀ (dec : String → Nat) (log : List (Nat × String)) (snapshot : List String)
        (cur hs : String) (f n : Nat) (m : String),
      hs ≠ "" → (log.map Prod.snd).Nodup → (n, m) ∈ log → dec hs < n →
      ((gmailFetchEmails (logGmailProvider dec log snapshot cur) (f + 1) "u"
          (some ⟨[("u", hs)], [], none⟩)).items.map (fun o => o.id)).count m = 1) ∧
    (∀ (dec : String → Nat) (log : List (Nat × String)) (snapshot : List String)
        (cur hs : String) (f n : Nat) (m : String),
      hs ≠ "" → (log.map Prod.snd).Nodup → (n, m) ∈ log → n ≤ dec hs →
      m ∉ (gmailFetchEmails (logGmailProvider dec log snapshot cur) (f + 1) "u"
          (some ⟨[("u", hs)], [], none⟩)).items.map (fun o => o.id)) := by
  refine ⟨by decide, ?_, ?_⟩
  · intro dec log snapshot cur hs f n m hne hnodup hmem hlt
    have hmema : (n, m) ∈ histAfter log (dec hs) := by
      simp only [histAfter, List.mem_filter]
      exact ⟨hmem, by simp [hlt]⟩
    have hnonempty : (histAfter log (dec hs)).isEmpty = false := by
      cases hcase : histAfter log (dec hs) with
      | nil => rw [hcase] at hmema; simp at hmema
      | cons x xs => rfl
    rw [logProvider_incremental_items dec log snapshot cur hs f hne hnonempty]
    have hsub : List.Sublist ((histAfter log (dec hs)).map Prod.snd) (log.map Prod.snd) :=
      (List.filter_sublist log).map Prod.snd
    have hnd : ((histAfter log (dec hs)).map Prod.snd).Nodup :=
      hnodup.sublist hsub
    have hmm : m ∈ (histAfter log (dec hs)).map Prod.snd :=
      List.mem_map.2 ⟨(n, m), hmema, rfl⟩
    exact List.count_eq_one_of_mem hnd hmm
  · intro dec log snapshot cur hs f n m hne hnodup hmem hle
    cases hcase : (histAfter log (dec hs)).isEmpty with
    | true =>
      rw [logProvider_incremental_empty dec log snapshot cur hs f hne hcase]
      simp
    | false =>
      rw [logProvider_incremental_items dec log snapshot cur hs f hne hcase]
      intro hcontra
      obtain ⟨en, hena, hsnd⟩ := List.mem_map.1 hcontra
      have henl : en ∈ log ∧ dec hs < en.1 := by
        have := List.mem_filter.1 hena
        exact ⟨this.1, by simpa using this.2⟩
      have : en = (n, m) := by
        apply List.inj_on_of_nodup_map hnodup henl.1 hmem
        rw [hsnd]
      rw [this] at henl
      omega

/-- Witness for C4: the delta clauses applied at the concrete log, for an
entry after the captured cursor (surfaced once) and for the in-scan arrival
(not surfaced). -/
theorem full_import_cursor_anchor_witness :
    ((gmailFetchEmails (logGmailProvider (fun s => if s = "2" then 2 else 0) [(1, "m1"), (2, "m2"), (3, "m3")] [] "2")
        1 "u" (some ⟨[("u", "2")], [], none⟩)).items.map (fun o => o.id)).count "m3" = 1 ∧
    "m2" ∉ (gmailFetchEmails (logGmailProvider (fun s => if s = "2" then 2 else 0) [(1, "m1"), (2, "m2"), (3, "m3")] [] "2")
        1 "u" (some ⟨[("u", "2")], [], none⟩)).items.map (fun o => o.id) := by
  constructor
  · exact full_import_cursor_anchor.2.1 (fun s => if s = "2" then 2 else 0)
      [(1, "m1"), (2, "m2"), (3, "m3")] [] "2" "2" 0 3 "m3"
      (by decide) (by decide) (by decide) (by decide)
  · exact full_import_cursor_anchor.2.2 (fun s => if s = "2" then 2 else 0)
      [(1, "m1"), (2, "m2"), (3, "m3")] [] "2" "2" 0 2 "m2"
      (by decide) (by decide) (by decide) (by decide)

/-! ## C8: device-flow polling (gmail-oauth.controller pollDeviceAuth) -/

/-- The credential object written on success. -/
structure GmailCredentials where
  ctype : String
  refreshToken : String
  userEmail : String
deriving Repr, DecidableEq

/-- A row of the ingestion_sources table, restricted to the fields the
controller touches. -/
structure SourceRow where
  id : String
  provider : String
  credentials : Option String
  status : String
deriving Repr, DecidableEq

/-- The durable world of the controller: the source rows and the initial
imports triggered so far. -/
structure OAuthWorld where
  sources : List SourceRow
  triggers : List String
deriving Repr, DecidableEq

/-- The OAuth client configuration. -/
structure OAuthConfig where
  clientId : Option String
  clientSecret : Option String
deriving Repr, DecidableEq

/-- The token-endpoint response to one device-code poll. -/
inductive TokenResp where
  | pending
  | slowDown
  | otherError (err : String) (desc : Option String)
  | success (accessToken : Option String) (refreshToken : Option String)
deriving Repr, DecidableEq

/-- The HTTP response of pollDeviceAuth. -/
inductive PollResp where
  | badRequest (msg : String)
  | serverError (msg : String)
  | pending (msg : String)
  | slowDown (msg : String)
  | errorS (msg : String)
  | success (msg : String) (userEmail : String)
deriving Repr, DecidableEq

/-- The db.update of the success path: set encrypted credentials and
auth_success status on the rows matching the source id. -/
def updateSource (w : OAuthWorld) (sid : String) (enc : String) : OAuthWorld :=
  { w with sources := w.sources.map (fun r =>
      if r.id == sid then
        { r with
          credentials := some enc
          status := "auth_success" }
      else r) }

/-- GmailOAuthController.pollDeviceAuth: parameter validation, the token
poll, the three non-terminal outcomes, and the success path that encrypts
and stores the credentials, marks the source authenticated and triggers the
initial import. -/
def pollDeviceAuth (cfg : OAuthConfig) (encrypt : GmailCredentials → String)
    (userinfoEmail : Option String) (w : OAuthWorld)
    (sourceId deviceCode : Option String) (tok : TokenResp) :
    List Event × PollResp × OAuthWorld :=
  match sourceId with
  | none => ([], .badRequest "Missing sourceId parameter", w)
  | some sid =>
    match deviceCode with
    | none => ([], .badRequest "Missing deviceCode parameter", w)
    | some _ =>
      if !(truthyS cfg.clientId) || !(truthyS cfg.clientSecret) then
        ([], .serverError "Google OAuth is not configured", w)
      else
        match tok with
        | .pending => ([.netTokenPoll], .pending "Waiting for user authorization", w)
        | .slowDown => ([.netTokenPoll], .slowDown "Please slow down polling", w)
        | .otherError e d =>
          ([.netTokenPoll, .logE "Device authorization error"], .errorS (jsOr d e), w)
        | .success _ rt? =>
          match rt? with
          | none =>
            ([.netTokenPoll, .logE "No refresh token received from Google"],
              .errorS "No refresh token received. Please try again.", w)
          | some rt =>
            match userinfoEmail with
            | none =>
              ([.netTokenPoll, .netUserinfo],
                .errorS "Could not get user email from Google", w)
            | some email =>
              ([.netTokenPoll, .netUserinfo, .dbWrite "ingestion_sources" sid,
                  .importTrigger sid],
                .success "Gmail account connected successfully" email,
                { updateSource w sid (encrypt ⟨"gmail", rt, email⟩) with
                  triggers := w.triggers ++ [sid] })

/-- Modelled from the spec: the provider-side device-authorization state
(the token endpoint is an external collaborator).  Polling is idempotent per
state; a success is terminal: redeeming the device code consumes it, and
any later poll of the same code receives a terminal error. -/
inductive DeviceAuthState where
  | pendingAuth
  | slowed
  | granted (accessToken refreshToken : String)
  | consumed
  | denied (reason : String)
deriving Repr, DecidableEq

/-- Modelled from the spec: one poll of the token endpoint from a given
device-authorization state. -/
def devicePoll : DeviceAuthState → TokenResp × DeviceAuthState
  | .pendingAuth => (.pending, .pendingAuth)
  | .slowed => (.slowDown, .slowed)
  | .granted a r => (.success (some a) (some r), .consumed)
  | .consumed => (.otherError "invalid_grant" none, .consumed)
  | .denied r => (.otherError r none, .denied r)

/-- ## C8.
A poll made while the provider reports authorization_pending returns a
pending status and leaves the world untouched (no credential write, no
status change, no import trigger); a slow_down response likewise; the first
poll that returns a refresh token writes the encrypted credentials, marks
the source authenticated and appends exactly one import trigger; and after
the success consumed the device code, a second poll returns an error status,
changes nothing, and the trigger count over the two polls grows by exactly
one. -/
theorem device_poll_contract :
    (∀ (cfg : OAuthConfig) (encrypt : GmailCredentials → String)
        (uinfo : Option String) (w : OAuthWorld) (sid dc : String),
      truthyS cfg.clientId = true → truthyS cfg.clientSecret = true →
      pollDeviceAuth cfg encrypt uinfo w (some sid) (some dc) (devicePoll .pendingAuth).1 =
        ([.netTokenPoll], .pending "Waiting for user authorization", w)) ∧
    (∀ (cfg : OAuthConfig) (encrypt : GmailCredentials → String)
        (uinfo : Option String) (w : OAuthWorld) (sid dc : String),
      truthyS cfg.clientId = true → truthyS cfg.clientSecret = true →
      pollDeviceAuth cfg encrypt uinfo w (some sid) (some dc) (devicePoll .slowed).1 =
        ([.netTokenPoll], .slowDown "Please slow down polling", w)) ∧
    (∀ (cfg : OAuthConfig) (encrypt : GmailCredentials → String) (email : String)
        (w : OAuthWorld) (sid dc a r : String),
      truthyS cfg.clientId = true → truthyS cfg.clientSecret = true →
      (pollDeviceAuth cfg encrypt (some email) w (some sid) (some dc)
          (devicePoll (.granted a r)).1).2.1 =
        .success "Gmail account connected successfully" email ∧
      (pollDeviceAuth cfg encrypt (some email) w (some sid) (some dc)
          (devicePoll (.granted a r)).1).2.2.sources =
        w.sources.map (fun row =>
          if row.id == sid then
            { row with
              credentials := some (encrypt ⟨"gmail", r, email⟩)
              status := "auth_success" }
          else row) ∧
      (pollDeviceAuth cfg encrypt (some email) w (some sid) (some dc)
          (devicePoll (.granted a r)).1).2.2.triggers = w.triggers ++ [sid]) ∧
    (∀ (cfg : OAuthConfig) (encrypt : GmailCredentials → String) (email : String)
        (w : OAuthWorld) (sid dc a r : String),
      truthyS cfg.clientId = true → truthyS cfg.clientSecret = true →
      (pollDeviceAuth cfg encrypt (some email)
          (pollDeviceAuth cfg encrypt (some email) w (some sid) (some dc)
            (devicePoll (.granted a r)).1).2.2
          (some sid) (some dc) (devicePoll (devicePoll (.granted a r)).2).1).2.1 =
        .errorS "invalid_grant" ∧
      (pollDeviceAuth cfg encrypt (some email)
          (pollDeviceAuth cfg encrypt (some email) w (some sid) (some dc)
            (devicePoll (.granted a r)).1).2.2
          (some sid) (some dc) (devicePoll (devicePoll (.granted a r)).2).1).2.2 =
        (pollDeviceAuth cfg encrypt (some email) w (some sid) (some dc)
          (devicePoll (.granted a r)).1).2.2 ∧
      ((pollDeviceAuth cfg encrypt (some email)
          (pollDeviceAuth cfg encrypt (some email) w (some sid) (some dc)
            (devicePoll (.granted a r)).1).2.2
          (some sid) (some dc)
          (devicePoll (devicePoll (.granted a r)).2).1).2.2.triggers.count sid =
        w.triggers.count sid + 1)) := by
  refine ⟨?_, ?_, ?_, ?_⟩
  · intro cfg encrypt uinfo w sid dc h1 h2
    simp [pollDeviceAuth, devicePoll, h1, h2]
  · intro cfg encrypt uinfo w sid dc h1 h2
    simp [pollDeviceAuth, devicePoll, h1, h2]
  · intro cfg encrypt email w sid dc a r h1 h2
    refine ⟨?_, ?_, ?_⟩
    · simp [pollDeviceAuth, devicePoll, h1, h2]
    · simp [pollDeviceAuth, devicePoll, h1, h2, updateSource]
    · simp [pollDeviceAuth, devicePoll, h1, h2, updateSource]
  · intro cfg encrypt email w sid dc a r h1 h2
    refine ⟨?_, ?_, ?_⟩
    · simp [pollDeviceAuth, devicePoll, h1, h2, jsOr]
    · simp [pollDeviceAuth, devicePoll, h1, h2]
    · simp [pollDeviceAuth, devicePoll, h1, h2, updateSource, List.count_append]

/-- Witness for C8: the contract evaluated at a concrete configuration,
world and identity encryption. -/
theorem device_poll_contract_witness :
    pollDeviceAuth ⟨some "cid", some "sec"⟩ (fun c => c.refreshToken) (some "a@b")
        ⟨[⟨"s1", "gmail", none, "pending_auth"⟩], []⟩ (some "s1") (some "d1")
        (devicePoll .pendingAuth).1 =
      ([.netTokenPoll], .pending "Waiting for user authorization",
        ⟨[⟨"s1", "gmail", none, "pending_auth"⟩], []⟩) ∧
    (pollDeviceAuth ⟨some "cid", some "sec"⟩ (fun c => c.refreshToken) (some "a@b")
        ⟨[⟨"s1", "gmail", none, "pending_auth"⟩], []⟩ (some "s1") (some "d1")
        (devicePoll (.granted "at" "rt")).1).2.2.triggers = ["s1"] := by
  constructor
  · exact device_poll_contract.1 ⟨some "cid", some "sec"⟩ (fun c => c.refreshToken)
      (some "a@b") ⟨[⟨"s1", "gmail", none, "pending_auth"⟩], []⟩ "s1" "d1"
      (by decide) (by decide)
  · have h := (device_poll_contract.2.2.1 ⟨some "cid", some "sec"⟩
      (fun c => c.refreshToken) "a@b" ⟨[⟨"s1", "gmail", none, "pending_auth"⟩], []⟩
      "s1" "d1" "at" "rt" (by decide) (by decide)).2.2
    simpa using h

/-! ## C9: trash/junk exclusion in full import versus incremental sync -/

/-- Modelled from the spec: the provider-side meaning of the
inMailboxOtherThan query filter (the JMAP server is an external
collaborator): an email matches when at least one of its mailboxes is not in
the given list. -/
def inMailboxOtherThan (excl : List String) (e : JMAPEmail) : Bool :=
  e.mailboxIds.any (fun m => !(excl.contains m))

/-- The store listing a JMAP provider answers an Email/query from: the
whole store, or the store restricted by an inMailboxOtherThan filter. -/
def storeBase (emails : List JMAPEmail) (filter : Option (List String)) :
    List JMAPEmail :=
  match filter with
  | none => emails
  | some excl => emails.filter (inMailboxOtherThan excl)

/-- Modelled from the spec: a JMAP provider backed by a fixed email store.
Email/query pages the store (filtered per inMailboxOtherThan when the
connector sends a filter) in store order; Email/changes answers from the
given change function; Email/get resolves ids against the store with no
mailbox filtering; blobs download and parse trivially. -/
def storeJmapProvider (emails : List JMAPEmail) (mailboxes : List JMAPMailbox)
    (stateToken : String) (chg : String → String × List String × List String) :
    JmapProvider :=
  { accountId := "acc"
    username := "u"
    mailboxes := mailboxes
    queryT := fun pos filter _ =>
      .ok ⟨(((storeBase emails filter).drop pos).take 50).map (fun e => e.id),
        ((storeBase emails filter).drop pos).take 50,
        some stateToken⟩
    changesT := fun s _ =>
      .ok (.okResp (some (chg s).1) (some (chg s).2.1) (some (chg s).2.2))
    getT := fun ids _ => .ok (ids.filterMap (fun i => emails.find? (fun e => e.id == i)))
    blobT := fun b _ => .ok b
    parse := fun _ => emptyParsed }

theorem storeProcessEmails_items (emails : List JMAPEmail)
    (mailboxes : List JMAPMailbox) (tok : String)
    (chg : String → String × List String × List String) :
    ∀ (l : List JMAPEmail) (st : JmapConnState),
    (processEmails (storeJmapProvider emails mailboxes tok chg) st l).2 =
      l.map (fun e => jmapEmailObject (storeJmapProvider emails mailboxes tok chg) st
        e e.blobId emptyParsed) := by
  intro l
  induction l with
  | nil => intro st; rfl
  | cons e rest ih =>
    intro st
    rw [processEmails_cons_ok (storeJmapProvider emails mailboxes tok chg) st e rest
      (jmapEmailObject (storeJmapProvider emails mailboxes tok chg) st e e.blobId
        emptyParsed) rfl]
    rw [ih st]
    rfl

theorem storeFullGo_run (emails : List JMAPEmail) (mailboxes : List JMAPMailbox)
    (tok : String) (chg : String → String × List String × List String) :
    ∀ (fuel pos : Nat) (st : JmapConnState), st.mailboxCache = mailboxes →
    (fetchAllEmailsGo (storeJmapProvider emails mailboxes tok chg) false fuel pos
        st).items.map (fun o => o.id) =
      (((emails.filter (inMailboxOtherThan (getExcludedMailboxIds mailboxes))).drop
        pos).take (50 * fuel)).map (fun e => e.id) ∧
    (fetchAllEmailsGo (storeJmapProvider emails mailboxes tok chg) false fuel pos
      st).err = none := by
  intro fuel
  induction fuel with
  | zero =>
    intro pos st hmc
    constructor
    · simp [fetchAllEmailsGo]
    · rfl
  | succ f ih =>
    intro pos st hmc
    obtain ⟨acc, nes, mc, sm⟩ := st
    have hmc2 : mailboxes = mc := hmc.symm
    subst hmc2
    simp only [fetchAllEmailsGo, Bool.false_eq_true, if_false]
    rw [show withRetry ((storeJmapProvider emails mailboxes tok chg).queryT pos
        (some (getExcludedMailboxIds
          (JmapConnState.mk acc nes mailboxes sm).mailboxCache))) 5 =
        .ok ⟨(((storeBase emails (some (getExcludedMailboxIds mailboxes))).drop
            pos).take 50).map (fun e => e.id),
          ((storeBase emails (some (getExcludedMailboxIds mailboxes))).drop
            pos).take 50,
          some tok⟩ from rfl]
    rw [show storeBase emails (some (getExcludedMailboxIds mailboxes)) =
        emails.filter (inMailboxOtherThan (getExcludedMailboxIds mailboxes)) from rfl]
    dsimp only
    by_cases hlen : ((((emails.filter
        (inMailboxOtherThan (getExcludedMailboxIds mailboxes))).drop pos).take 50).map
          (fun e => e.id)).length == 50
    · simp only [hlen, if_true]
      have hlen50 : (((emails.filter
          (inMailboxOtherThan (getExcludedMailboxIds mailboxes))).drop pos).take
            50).length = 50 := by
        have h := beq_iff_eq.1 hlen
        simpa using h
      have hrec := ih (pos + (((emails.filter
        (inMailboxOtherThan (getExcludedMailboxIds mailboxes))).drop pos).take
          50).length)
        (if truthyS (some tok) = true then
          { JmapConnState.mk acc nes mailboxes sm with newEmailState := some tok }
        else JmapConnState.mk acc nes mailboxes sm)
        (by split <;> rfl)
      constructor
      · dsimp only
        rw [List.map_append, storeProcessEmails_items emails mailboxes tok chg,
          hrec.1, List.map_map]
        rw [show 50 * (f + 1) = 50 + 50 * f from by ring]
        rw [List.take_add, List.map_append, List.drop_drop, hlen50]
        congr 1
      · dsimp only
        exact hrec.2
    · simp only [hlen, Bool.false_eq_true, if_false]
      have hlen2 : (((emails.filter
          (inMailboxOtherThan (getExcludedMailboxIds mailboxes))).drop pos).take
            50).length ≠ 50 := by
        intro hcontra
        rw [List.length_map, hcontra] at hlen
        simp at hlen
      have hsmall : ((emails.filter
          (inMailboxOtherThan (getExcludedMailboxIds mailboxes))).drop pos).length <
          50 := by
        rw [List.length_take] at hlen2
        omega
      constructor
      · dsimp only
        rw [storeProcessEmails_items emails mailboxes tok chg, List.map_map]
        rw [List.take_of_length_le (le_of_lt hsmall)]
        rw [List.take_of_length_le (by omega)]
        apply List.map_congr_left
        intro e _
        rfl
      · dsimp only

theorem chunks50Go_flatten : ∀ (fuel : Nat) (l : List String), l.length ≤ fuel →
    (chunks50Go fuel l).flatten = l := by
  intro fuel
  induction fuel with
  | zero =>
    intro l h
    cases l with
    | nil => rfl
    | cons x xs => simp at h
  | succ f ih =>
    intro l h
    cases l with
    | nil => rfl
    | cons x xs =>
      simp only [chunks50Go, List.flatten_cons]
      rw [ih ((x :: xs).drop 50) (by
        rw [List.length_drop]
        have hxl : (x :: xs).length = xs.length + 1 := rfl
        omega)]
      exact List.take_append_drop 50 (x :: xs)

theorem chunks50_flatten (l : List String) : (chunks50 l).flatten = l :=
  chunks50Go_flatten l.length l (le_refl _)

theorem find?_prop {α : Type} (p : α → Bool) (l : List α) (a : α)
    (h : l.find? p = some a) : p a = true := List.find?_some h

theorem storeChangesBatches_run (emails : List JMAPEmail)
    (mailboxes : List JMAPMailbox) (tok : String)
    (chg : String → String × List String × List String) :
    ∀ (batches : List (List String)) (st : JmapConnState),
    (changesBatches (storeJmapProvider emails mailboxes tok chg) st batches).2.1.map
        (fun o => o.id) =
      batches.flatMap (fun b =>
        (b.filterMap (fun i => emails.find? (fun e => e.id == i))).map (fun e => e.id)) ∧
    (changesBatches (storeJmapProvider emails mailboxes tok chg) st batches).2.2 =
      none := by
  intro batches
  induction batches with
  | nil => intro st; exact ⟨rfl, rfl⟩
  | cons b rest ih =>
    intro st
    rw [changesBatches_cons (storeJmapProvider emails mailboxes tok chg) st b rest
      (b.filterMap (fun i => emails.find? (fun e => e.id == i))) rfl]
    dsimp only
    constructor
    · rw [List.map_append, (ih st).1, storeProcessEmails_items, List.map_map,
        List.flatMap_cons]
      congr 1
    · exact (ih st).2

/-- ## C9.
With the all-inclusive-archive configuration disabled, the JMAP full import
excludes every message all of whose mailboxes are excluded (role trash or
junk, collected by getExcludedMailboxIds into the inMailboxOtherThan filter
of every Email/query page), whereas the incremental Email/changes +
Email/get path applies no mailbox filter, so a created message lying only in
Trash or Junk is still yielded during incremental sync. -/
theorem trash_exclusion_asymmetry :
    (∀ (cache : List JMAPMailbox) (i : String),
      i ∈ getExcludedMailboxIds cache ↔
        ∃ mb ∈ cache, mb.id = i ∧ (mb.role = some "trash" ∨ mb.role = some "junk")) ∧
    (∀ (emails : List JMAPEmail) (mailboxes : List JMAPMailbox) (tok : String)
        (chg : String → String × List String × List String) (e : JMAPEmail) (fuel : Nat),
      e ∈ emails → (emails.map (fun x => x.id)).Nodup →
      inMailboxOtherThan (getExcludedMailboxIds mailboxes) e = false →
      e.id ∉ (jmapFetchEmails (storeJmapProvider emails mailboxes tok chg) false fuel
        none).items.map (fun o => o.id)) ∧
    (∀ (emails : List JMAPEmail) (mailboxes : List JMAPMailbox) (tok s : String)
        (chg : String → String × List String × List String) (e : JMAPEmail) (fuel : Nat)
        (ss : SyncState),
      jmapExistingState (some ss) "acc" = some s →
      e ∈ emails → e.id ∈ (chg s).2.1 →
      e.id ∈ (jmapFetchEmails (storeJmapProvider emails mailboxes tok chg) false fuel
        (some ss)).items.map (fun o => o.id)) := by
  refine ⟨?_, ?_, ?_⟩
  · intro cache i
    simp only [getExcludedMailboxIds, List.mem_map, List.mem_filter]
    constructor
    · rintro ⟨mb, ⟨hmem, hrole⟩, rfl⟩
      refine ⟨mb, hmem, rfl, ?_⟩
      rcases Bool.or_eq_true_iff.1 hrole with h | h
      · exact Or.inl (beq_iff_eq.1 h)
      · exact Or.inr (beq_iff_eq.1 h)
    · rintro ⟨mb, hmem, rfl, hrole⟩
      refine ⟨mb, ⟨hmem, ?_⟩, rfl⟩
      rcases hrole with h | h
      · exact Bool.or_eq_true_iff.2 (Or.inl (beq_iff_eq.2 h))
      · exact Bool.or_eq_true_iff.2 (Or.inr (beq_iff_eq.2 h))
  · intro emails mailboxes tok chg e fuel hmem hnodup hexcl
    rw [jmapFetchEmails_full (storeJmapProvider emails mailboxes tok chg) false fuel
      none rfl]
    have hrun := storeFullGo_run emails mailboxes tok chg fuel 0
      (jmapInitState (storeJmapProvider emails mailboxes tok chg)) rfl
    rw [show fetchAllEmails (storeJmapProvider emails mailboxes tok chg) false fuel
        (jmapInitState (storeJmapProvider emails mailboxes tok chg)) =
        fetchAllEmailsGo (storeJmapProvider emails mailboxes tok chg) false fuel 0
          (jmapInitState (storeJmapProvider emails mailboxes tok chg)) from rfl]
    rw [hrun.1]
    intro hcontra
    obtain ⟨e2, he2, hid⟩ := List.mem_map.1 hcontra
    have he2' : e2 ∈ emails.filter (inMailboxOtherThan (getExcludedMailboxIds mailboxes)) :=
      List.mem_of_mem_take (by simpa [List.drop_zero] using he2)
    have hf := List.mem_filter.1 he2'
    have heq : e2 = e := by
      apply List.inj_on_of_nodup_map hnodup hf.1 hmem
      exact hid
    rw [heq] at hf
    rw [hexcl] at hf
    exact absurd hf.2 (by simp)
  · intro emails mailboxes tok s chg e fuel ss hex hmem hcreated
    rw [jmapFetchEmails_incremental _ _ _ _ s hex]
    have hids : e.id ∈ (chg s).2.1 ++ (chg s).2.2 := List.mem_append.2 (Or.inl hcreated)
    have hlen : (((some (chg s).2.1 : Option (List String)).getD []) ++
        ((some (chg s).2.2 : Option (List String)).getD [])).length > 0 := by
      simp only [Option.getD_some]
      have := List.length_pos_of_mem hids
      omega
    have htry := fetchEmailChangesTry_okResp (storeJmapProvider emails mailboxes tok chg)
      false fuel (jmapInitState (storeJmapProvider emails mailboxes tok chg)) s
      (some (chg s).1) (some (chg s).2.1) (some (chg s).2.2) rfl hlen
    simp only [Option.getD_some] at htry
    have hcb := storeChangesBatches_run emails mailboxes tok chg
      (chunks50 ((chg s).2.1 ++ (chg s).2.2))
      (if truthyS (some (chg s).1) then
        { jmapInitState (storeJmapProvider emails mailboxes tok chg) with
          newEmailState := some (chg s).1 }
       else jmapInitState (storeJmapProvider emails mailboxes tok chg))
    have herr : (fetchEmailChangesTry (storeJmapProvider emails mailboxes tok chg)
        false fuel (jmapInitState (storeJmapProvider emails mailboxes tok chg)) s).err =
        none := by
      rw [htry]
      exact hcb.2
    rw [fetchEmailChanges_of_try_none _ _ _ _ _ herr, htry]
    show e.id ∈ (changesBatches _ _ _).2.1.map (fun o => o.id)
    rw [hcb.1]
    have hflat : e.id ∈ (chunks50 ((chg s).2.1 ++ (chg s).2.2)).flatten := by
      rw [chunks50_flatten]
      exact hids
    obtain ⟨b, hb, hbmem⟩ := List.mem_flatten.1 hflat
    apply List.mem_flatMap.2
    refine ⟨b, hb, ?_⟩
    have hfind : (emails.find? (fun x => x.id == e.id)).isSome :=
      List.find?_isSome.2 ⟨e, hmem, by simp⟩
    obtain ⟨e2, he2⟩ := Option.isSome_iff_exists.1 hfind
    have hprop := find?_prop (fun x => x.id == e.id) emails e2 he2
    have he2id : e2.id = e.id := beq_iff_eq.1 (by simpa using hprop)
    apply List.mem_map.2
    refine ⟨e2, ?_, he2id⟩
    apply List.mem_filterMap.2
    exact ⟨e.id, hbmem, he2⟩

/-- Witness for C9: a message lying only in a trash-role mailbox is absent
from the full import over the store provider but present in an incremental
cycle that reports it as created. -/
theorem trash_exclusion_asymmetry_witness :
    "t1" ∉ (jmapFetchEmails (storeJmapProvider [⟨"t1", "bt", "T", ["mtrash"], "", ""⟩]
        [⟨"mtrash", "Trash", none, some "trash"⟩] "S1" (fun _ => ("S2", ["t1"], [])))
        false 1 none).items.map (fun o => o.id) ∧
    "t1" ∈ (jmapFetchEmails (storeJmapProvider [⟨"t1", "bt", "T", ["mtrash"], "", ""⟩]
        [⟨"mtrash", "Trash", none, some "trash"⟩] "S1" (fun _ => ("S2", ["t1"], [])))
        false 1 (some ⟨[], [("acc", "S0")], none⟩)).items.map (fun o => o.id) := by
  constructor
  · exact trash_exclusion_asymmetry.2.1 [⟨"t1", "bt", "T", ["mtrash"], "", ""⟩]
      [⟨"mtrash", "Trash", none, some "trash"⟩] "S1" (fun _ => ("S2", ["t1"], []))
      ⟨"t1", "bt", "T", ["mtrash"], "", ""⟩ 1 (by decide) (by decide) (by decide)
  · exact trash_exclusion_asymmetry.2.2 [⟨"t1", "bt", "T", ["mtrash"], "", ""⟩]
      [⟨"mtrash", "Trash", none, some "trash"⟩] "S1" "S0" (fun _ => ("S2", ["t1"], []))
      ⟨"t1", "bt", "T", ["mtrash"], "", ""⟩ 1 ⟨[], [("acc", "S0")], none⟩
      (by decide) (by decide) (by decide)

end OpenArchiver
